import Mathlib

/-!
Verification of the command-driven extraction pipeline and request-history
store of the `llm-file-test-app` server (`src/server.cjs`).

The embedding models:
* JSON values, `JSON.parse` and `JSON.stringify` (numbers are modelled as
  integers: fractional/exponent JSON numbers denote IEEE doubles, which are
  outside the scope of this embedding, and so are `\uXXXX` escapes; the
  printer escapes the two structural characters plus the common control
  characters, leaving other characters verbatim — the parser accepts them
  verbatim as well, so printing and parsing agree on every modelled value);
* the SQLite-backed history table (`request_history`) as a list of rows plus
  an id counter; prepared statements become Lean functions on that state;
* Node string utilities used by the server (`path.basename`, `path.extname`,
  `String.prototype.trim`, `Number(...)` string conversion on the numeral
  forms the server can receive, `Buffer.toString("base64")`);
* the four HTTP handlers (`/api/chat`, `/api/analyze-file`,
  `GET /api/history`, `DELETE /api/history/:id`), with the external
  collaborators (OpenAI client, sharp, mammoth) passed in as explicit
  outcome parameters, since the spec treats them as opaque capabilities.
-/

set_option maxRecDepth 2048

/-! ## JSON values -/

/-- A JSON value as produced by `JSON.parse`.  Numbers are restricted to
integers (see the file header).  Objects are ordered key/value lists, as JS
objects preserve insertion order. -/
inductive Json where
  | null
  | bool (b : Bool)
  | num (n : Int)
  | str (s : String)
  | arr (xs : List Json)
  | obj (kvs : List (String × Json))
deriving Repr

/-- JS member access `v[k]` on a parsed JSON value: `none` models
`undefined`.  For duplicate keys `JSON.parse` keeps the last occurrence, so
lookup scans from the right. -/
def Json.getField (v : Json) (k : String) : Option Json :=
  match v with
  | .obj kvs => (kvs.reverse.find? (fun p => p.1 = k)).map (·.2)
  | _ => none

/-- JS truthiness of a JSON value (`undefined` is handled by callers via
`Option`). -/
def Json.jsTruthy : Json → Bool
  | .null => false
  | .bool b => b
  | .num n => n != 0
  | .str s => s != ""
  | .arr _ => true
  | .obj _ => true

/-- JS truthiness of a possibly-absent member (`none` = `undefined`). -/
def jsTruthyOpt : Option Json → Bool
  | none => false
  | some v => v.jsTruthy

/-! ## `JSON.stringify` (default options: no whitespace) -/

/-- Decimal digit character. -/
def digitChar (n : Nat) : Char := Char.ofNat (48 + n)

/-- Decimal digits of a natural number, most significant first
(`(255).toString()` style). -/
def natDigits (n : Nat) : List Char :=
  if n < 10 then [digitChar n]
  else natDigits (n / 10) ++ [digitChar (n % 10)]
decreasing_by exact Nat.div_lt_self (by omega) (by omega)

/-- Decimal rendering of an integer, as JS prints integral numbers. -/
def intDigits (n : Int) : List Char :=
  if n < 0 then '-' :: natDigits (-n).toNat else natDigits n.toNat

/-- `JSON.stringify` escaping of one character inside a string literal.
JS escapes `"` and `\` and the named control characters; other characters
are emitted verbatim (we also emit the remaining C0 characters verbatim,
and the parser below accepts them verbatim, see the file header). -/
def escChar (c : Char) : List Char :=
  if c = '"' then ['\\', '"']
  else if c = '\\' then ['\\', '\\']
  else if c = '\n' then ['\\', 'n']
  else if c = '\t' then ['\\', 't']
  else if c = '\r' then ['\\', 'r']
  else if c = Char.ofNat 8 then ['\\', 'b']
  else if c = Char.ofNat 12 then ['\\', 'f']
  else [c]

/-- Escaped body of a string literal. -/
def escBody (cs : List Char) : List Char := cs.flatMap escChar

/-- A JSON string literal with its quotes. -/
def strLit (s : String) : List Char := '"' :: escBody s.data ++ ['"']

/-- The characters of the `null` literal. -/
@[simp] def nullChars : List Char := ['n', 'u', 'l', 'l']

/-- The characters of the two boolean literals. -/
@[simp] def boolChars (b : Bool) : List Char :=
  if b then ['t', 'r', 'u', 'e'] else ['f', 'a', 'l', 's', 'e']

mutual

/-- `JSON.stringify v` (default options), as a character list. -/
def printVal : Json → List Char
  | .null => nullChars
  | .bool b => boolChars b
  | .num n => intDigits n
  | .str s => strLit s
  | .arr xs =>
    match xs with
    | [] => ['[', ']']
    | x :: rest => '[' :: (printVal x ++ printArrRest rest) ++ [']']
  | .obj kvs =>
    match kvs with
    | [] => ['{', '}']
    | kv :: rest => '{' :: (printMember kv ++ printObjRest rest) ++ ['}']

/-- The `,`-prefixed tail elements of an array literal. -/
def printArrRest : List Json → List Char
  | [] => []
  | x :: rest => ',' :: printVal x ++ printArrRest rest

/-- One `"key":value` member of an object literal. -/
def printMember : String × Json → List Char
  | (k, v) => strLit k ++ ':' :: printVal v

/-- The `,`-prefixed tail members of an object literal. -/
def printObjRest : List (String × Json) → List Char
  | [] => []
  | kv :: rest => ',' :: printMember kv ++ printObjRest rest

end

/-- `JSON.stringify v` as a string. -/
def stringifyJson (v : Json) : String := String.mk (printVal v)

/-! ## `JSON.parse` -/

/-- The JSON whitespace characters. -/
def isJsonWs (c : Char) : Bool := c = ' ' || c = '\t' || c = '\n' || c = '\r'

/-- Skip insignificant whitespace. -/
def skipWs (cs : List Char) : List Char := cs.dropWhile isJsonWs

/-- Body of a string literal after the opening quote; returns the decoded
characters and the input following the closing quote.  Escapes are the named
JSON ones (`\uXXXX` escapes are outside the modelled fragment, as are the
IEEE-double number forms; neither is produced by `JSON.stringify` on the
modelled values, so printing and parsing still agree on every value). -/
def parseStrBody : List Char → Option (List Char × List Char)
  | [] => none
  | '\\' :: [] => none
  | '\\' :: e :: rest' =>
    if e = '"' then (parseStrBody rest').map (fun p => ('"' :: p.1, p.2))
    else if e = '\\' then (parseStrBody rest').map (fun p => ('\\' :: p.1, p.2))
    else if e = '/' then (parseStrBody rest').map (fun p => ('/' :: p.1, p.2))
    else if e = 'n' then (parseStrBody rest').map (fun p => ('\n' :: p.1, p.2))
    else if e = 't' then (parseStrBody rest').map (fun p => ('\t' :: p.1, p.2))
    else if e = 'r' then (parseStrBody rest').map (fun p => ('\r' :: p.1, p.2))
    else if e = 'b' then (parseStrBody rest').map (fun p => (Char.ofNat 8 :: p.1, p.2))
    else if e = 'f' then (parseStrBody rest').map (fun p => (Char.ofNat 12 :: p.1, p.2))
    else none
  | c :: rest =>
    if c = '"' then some ([], rest)
    else (parseStrBody rest).map (fun p => (c :: p.1, p.2))

/-- Decimal digit test (the set `0`–`9`, by code point). -/
def isDigitCh (c : Char) : Bool := 48 ≤ c.toNat && c.toNat ≤ 57

/-- Value of a digit run, most significant first. -/
def digitsToNat (ds : List Char) : Nat :=
  ds.foldl (fun a c => a * 10 + (c.toNat - 48)) 0

/-- An unsigned JSON integer: a nonempty digit run without a redundant
leading zero (`JSON.parse` rejects `01`). -/
def parseNatNum (cs : List Char) : Option (Nat × List Char) :=
  match cs.takeWhile isDigitCh with
  | [] => none
  | d :: ds =>
    if d = '0' ∧ ds ≠ [] then none
    else some (digitsToNat (d :: ds), cs.dropWhile isDigitCh)

/-- A JSON number token (integral only, see the file header). -/
def parseNum (cs : List Char) : Option (Int × List Char) :=
  match cs with
  | [] => none
  | c :: rest =>
    if c = '-' then (parseNatNum rest).map (fun p => (-(p.1 : Int), p.2))
    else (parseNatNum (c :: rest)).map (fun p => ((p.1 : Int), p.2))

mutual

/-- One JSON value, fuel-bounded recursive descent. -/
def parseVal : Nat → List Char → Option (Json × List Char)
  | 0, _ => none
  | fuel + 1, cs =>
    match skipWs cs with
    | 'n' :: 'u' :: 'l' :: 'l' :: rest => some (.null, rest)
    | 't' :: 'r' :: 'u' :: 'e' :: rest => some (.bool true, rest)
    | 'f' :: 'a' :: 'l' :: 's' :: 'e' :: rest => some (.bool false, rest)
    | '"' :: rest => (parseStrBody rest).map (fun p => (.str (String.mk p.1), p.2))
    | '[' :: rest => parseArrBody fuel rest
    | '{' :: rest => parseObjBody fuel rest
    | other => (parseNum other).map (fun p => (.num p.1, p.2))

/-- An array body, after the opening bracket. -/
def parseArrBody : Nat → List Char → Option (Json × List Char)
  | 0, _ => none
  | fuel + 1, cs =>
    match skipWs cs with
    | [] => none
    | c :: rest =>
      if c = ']' then some (.arr [], rest)
      else
        (parseVal fuel (c :: rest)).bind fun p =>
          (parseArrRest fuel p.2).map fun q => (.arr (p.1 :: q.1), q.2)

/-- The tail of an array body: `,`-separated further elements, then `]`. -/
def parseArrRest : Nat → List Char → Option (List Json × List Char)
  | 0, _ => none
  | fuel + 1, cs =>
    match skipWs cs with
    | [] => none
    | c :: rest =>
      if c = ']' then some ([], rest)
      else if c = ',' then
        (parseVal fuel rest).bind fun p =>
          (parseArrRest fuel p.2).map fun q => (p.1 :: q.1, q.2)
      else none

/-- A `:` (after an object key), then a value. -/
def parseColonVal : Nat → List Char → Option (Json × List Char)
  | 0, _ => none
  | fuel + 1, cs =>
    match skipWs cs with
    | [] => none
    | c :: rest => if c = ':' then parseVal fuel rest else none

/-- An object body, after the opening brace. -/
def parseObjBody : Nat → List Char → Option (Json × List Char)
  | 0, _ => none
  | fuel + 1, cs =>
    match skipWs cs with
    | [] => none
    | c :: rest =>
      if c = '}' then some (.obj [], rest)
      else if c = '"' then
        (parseStrBody rest).bind fun pk =>
          (parseColonVal fuel pk.2).bind fun pv =>
            (parseObjRest fuel pv.2).map fun q =>
              (.obj ((String.mk pk.1, pv.1) :: q.1), q.2)
      else none

/-- The tail of an object body: `,`-separated further members, then `}`. -/
def parseObjRest : Nat → List Char → Option (List (String × Json) × List Char)
  | 0, _ => none
  | fuel + 1, cs =>
    match skipWs cs with
    | [] => none
    | c :: rest =>
      if c = '}' then some ([], rest)
      else if c = ',' then
        match skipWs rest with
        | '"' :: r0 =>
          (parseStrBody r0).bind fun pk =>
            (parseColonVal fuel pk.2).bind fun pv =>
              (parseObjRest fuel pv.2).map fun q =>
                ((String.mk pk.1, pv.1) :: q.1, q.2)
        | _ => none
      else none

end

/-- `JSON.parse s`: parse one value, allow trailing whitespace only.
`Except.error ()` models the thrown `SyntaxError`.  The fuel `2 * length + 2`
dominates the recursion depth of any parse (each recursive call either
consumes a character or is immediately followed by one that does). -/
def parseJson (s : String) : Except Unit Json :=
  match parseVal (2 * s.data.length + 2) s.data with
  | some (v, rest) => if skipWs rest = [] then .ok v else .error ()
  | none => .error ()

example : parseJson "{}" = .ok (.obj []) := rfl
example : parseJson " [1, -20, \"a\\n\"] " =
    .ok (.arr [.num 1, .num (-20), .str "a\n"]) := rfl
example : parseJson "" = .error () := rfl
example : parseJson "hello" = .error () := rfl
example : parseJson "\x7b\"_raw\":\"x\"\x7d" = .ok (.obj [("_raw", .str "x")]) := rfl
example : parseJson (stringifyJson (.obj [("a", .arr [.num 5, .null])])) =
    .ok (.obj [("a", .arr [.num 5, .null])]) := by
  simp [stringifyJson, printVal, printArrRest, printMember, printObjRest,
    strLit, escBody, escChar, intDigits, natDigits, digitChar]
  rfl

/-! ## Round-trip of `JSON.parse` after `JSON.stringify`

The development below proves `parseJson (stringifyJson v) = .ok v` for every
modelled JSON value `v`; the server relies on this when it re-reads the
`result_json` column it wrote. -/

theorem skipWs_cons (c : Char) (cs : List Char) (h : isJsonWs c = false) :
    skipWs (c :: cs) = c :: cs := by
  simp [skipWs, List.dropWhile_cons, h]

theorem digit_cases (c : Char) (h : isDigitCh c = true) :
    c = '0' ∨ c = '1' ∨ c = '2' ∨ c = '3' ∨ c = '4' ∨
    c = '5' ∨ c = '6' ∨ c = '7' ∨ c = '8' ∨ c = '9' := by
  have hc : Char.ofNat c.toNat = c := Char.ofNat_toNat c
  simp only [isDigitCh, Bool.and_eq_true, decide_eq_true_eq] at h
  obtain ⟨h1, h2⟩ := h
  interval_cases h3 : c.toNat <;> subst hc <;> decide

theorem digitChar_toNat (n : Nat) (h : n < 10) : (digitChar n).toNat = 48 + n := by
  interval_cases n <;> decide

theorem isDigitCh_digitChar (n : Nat) (h : n < 10) : isDigitCh (digitChar n) = true := by
  interval_cases n <;> decide

theorem natDigits_all_digits (n : Nat) : ∀ c ∈ natDigits n, isDigitCh c = true := by
  induction n using Nat.strong_induction_on with
  | _ n ih =>
    rw [natDigits]
    split
    · intro c hc
      simp only [List.mem_singleton] at hc
      subst hc
      exact isDigitCh_digitChar n (by omega)
    · intro c hc
      rcases List.mem_append.mp hc with h | h
      · exact ih (n / 10) (Nat.div_lt_self (by omega) (by omega)) c h
      · simp only [List.mem_singleton] at h
        subst h
        exact isDigitCh_digitChar (n % 10) (Nat.mod_lt _ (by omega))

theorem natDigits_ne_nil (n : Nat) : natDigits n ≠ [] := by
  rw [natDigits]
  split
  · simp
  · simp

theorem digitsToNat_natDigits_aux (n : Nat) :
    ∀ a : Nat,
      (natDigits n).foldl (fun a c => a * 10 + (c.toNat - 48)) a =
        a * 10 ^ (natDigits n).length + n := by
  induction n using Nat.strong_induction_on with
  | _ n ih =>
    intro a
    rw [natDigits]
    split
    · rename_i h
      simp only [List.foldl_cons, List.foldl_nil, List.length_singleton, pow_one,
        digitChar_toNat n h]
      omega
    · rename_i h
      rw [List.foldl_append]
      rw [ih (n / 10) (Nat.div_lt_self (by omega) (by omega))]
      simp only [List.foldl_cons, List.foldl_nil]
      rw [digitChar_toNat (n % 10) (Nat.mod_lt _ (by omega))]
      have hmod : 48 + n % 10 - 48 = n % 10 := by omega
      rw [hmod]
      have hlen : (natDigits (n / 10) ++ [digitChar (n % 10)]).length =
          (natDigits (n / 10)).length + 1 := by simp
      rw [hlen, pow_succ]
      have hdm : n / 10 * 10 + n % 10 = n := by omega
      calc (a * 10 ^ (natDigits (n / 10)).length + n / 10) * 10 + n % 10
          = a * (10 ^ (natDigits (n / 10)).length * 10) + (n / 10 * 10 + n % 10) := by
            ring
        _ = a * (10 ^ (natDigits (n / 10)).length * 10) + n := by rw [hdm]

theorem digitsToNat_natDigits (n : Nat) : digitsToNat (natDigits n) = n := by
  have := digitsToNat_natDigits_aux n 0
  simpa [digitsToNat] using this

theorem natDigits_no_leading_zero (n : Nat) :
    ∀ d t, natDigits n = d :: t → d = '0' → t = [] := by
  induction n using Nat.strong_induction_on with
  | _ n ih =>
    intro d t h hd
    rw [natDigits] at h
    split at h
    · rename_i hlt
      injection h with h1 h2
      exact h2.symm
    · rename_i hge
      obtain ⟨d', t', h'⟩ : ∃ d' t', natDigits (n / 10) = d' :: t' := by
        cases hnd : natDigits (n / 10) with
        | nil => exact absurd hnd (natDigits_ne_nil _)
        | cons x xs => exact ⟨x, xs, rfl⟩
      rw [h'] at h
      simp only [List.cons_append] at h
      injection h with h1 h2
      -- the head digit of `natDigits (n / 10)` would be '0', forcing n / 10 = 0
      have hd' : d' = '0' := h1.trans hd
      have ht' : t' = [] :=
        ih (n / 10) (Nat.div_lt_self (by omega) (by omega)) d' t' h' hd'
      have hzero : natDigits (n / 10) = ['0'] := by rw [h', ht', hd']
      have hdiv : n / 10 = 0 := by
        have hv := digitsToNat_natDigits (n / 10)
        rw [hzero] at hv
        simpa [digitsToNat] using hv.symm
      exact absurd hdiv (by omega)

/-- A digit is none of the characters the parser treats specially. -/
theorem digit_not_special (c : Char) (h : isDigitCh c = true) :
    isJsonWs c = false ∧ c ≠ ']' ∧ c ≠ '}' ∧ c ≠ ',' ∧ c ≠ ':' ∧ c ≠ '-' ∧
    c ≠ '"' ∧ c ≠ '[' ∧ c ≠ '{' := by
  rcases digit_cases c h with h' | h' | h' | h' | h' | h' | h' | h' | h' | h' <;>
    subst h' <;> exact ⟨rfl, by decide, by decide, by decide, by decide, by decide,
      by decide, by decide, by decide⟩

theorem takeWhile_append_of (p : Char → Bool) (l1 l2 : List Char)
    (h1 : ∀ c ∈ l1, p c = true) (h2 : ∀ c, l2.head? = some c → p c = false) :
    (l1 ++ l2).takeWhile p = l1 ∧ (l1 ++ l2).dropWhile p = l2 := by
  induction l1 with
  | nil =>
    simp only [List.nil_append]
    cases l2 with
    | nil => simp
    | cons c t => simp [List.takeWhile_cons, List.dropWhile_cons, h2 c rfl]
  | cons c t ih =>
    have hc : p c = true := h1 c (List.mem_cons_self c t)
    have iht := ih (fun x hx => h1 x (List.mem_cons_of_mem c hx))
    simp [List.takeWhile_cons, List.dropWhile_cons, hc, iht.1, iht.2]

/-- Any run of printed digits is read back as the number it prints. -/
theorem parseNatNum_rt (n : Nat) (rest : List Char)
    (hrest : ∀ c, rest.head? = some c → isDigitCh c = false) :
    parseNatNum (natDigits n ++ rest) = some (n, rest) := by
  obtain ⟨htake, hdrop⟩ :=
    takeWhile_append_of isDigitCh (natDigits n) rest (natDigits_all_digits n) hrest
  obtain ⟨d, t, hdt⟩ : ∃ d t, natDigits n = d :: t := by
    cases hnd : natDigits n with
    | nil => exact absurd hnd (natDigits_ne_nil _)
    | cons x xs => exact ⟨x, xs, rfl⟩
  rw [parseNatNum.eq_def, htake, hdrop, hdt]
  have hcond : ¬(d = '0' ∧ t ≠ []) := by
    rintro ⟨hd0, hne⟩
    exact hne (natDigits_no_leading_zero n d t hdt hd0)
  simp only [hcond, if_false]
  rw [← hdt, digitsToNat_natDigits]

/-- A printed integer is read back as itself. -/
theorem parseNum_rt (n : Int) (rest : List Char)
    (hrest : ∀ c, rest.head? = some c → isDigitCh c = false) :
    parseNum (intDigits n ++ rest) = some (n, rest) := by
  rw [intDigits]
  split
  · rename_i hneg
    simp only [List.cons_append, parseNum, if_true]
    rw [parseNatNum_rt (-n).toNat rest hrest]
    simp only [Option.map]
    have h1 : ((-n).toNat : Int) = -n := Int.toNat_of_nonneg (by omega)
    rw [h1, neg_neg]
  · rename_i hpos
    obtain ⟨d, t, hdt⟩ : ∃ d t, natDigits n.toNat = d :: t := by
      cases hnd : natDigits n.toNat with
      | nil => exact absurd hnd (natDigits_ne_nil _)
      | cons x xs => exact ⟨x, xs, rfl⟩
    have hd : isDigitCh d = true := by
      refine natDigits_all_digits n.toNat d ?_
      rw [hdt]; exact List.mem_cons_self d t
    have hdne : d ≠ '-' := (digit_not_special d hd).2.2.2.2.2.1
    rw [hdt]
    simp only [List.cons_append, parseNum]
    rw [if_neg hdne, ← List.cons_append, ← hdt, parseNatNum_rt n.toNat rest hrest]
    simp only [Option.map]
    rw [Int.toNat_of_nonneg (by omega)]

/-- A printed string-literal body is decoded back to the original characters. -/
theorem parseStrBody_rt (cs : List Char) (rest : List Char) :
    parseStrBody (escBody cs ++ '"' :: rest) = some (cs, rest) := by
  induction cs with
  | nil => simp [escBody, parseStrBody]
  | cons c t ih =>
    simp only [escBody, List.flatMap_cons, List.append_assoc]
    have ih' : parseStrBody (t.flatMap escChar ++ '"' :: rest) = some (t, rest) := by
      simpa [escBody] using ih
    by_cases h1 : c = '"'
    · subst h1; simp [escChar, parseStrBody, escBody, ih']
    by_cases h2 : c = '\\'
    · subst h2; simp [escChar, parseStrBody, escBody, ih']
    by_cases h3 : c = '\n'
    · subst h3; simp [escChar, parseStrBody, escBody, ih']
    by_cases h4 : c = '\t'
    · subst h4; simp [escChar, parseStrBody, escBody, ih']
    by_cases h5 : c = '\r'
    · subst h5; simp [escChar, parseStrBody, escBody, ih']
    by_cases h6 : c = Char.ofNat 8
    · subst h6; simp [escChar, parseStrBody, escBody, ih']
    by_cases h7 : c = Char.ofNat 12
    · subst h7; simp [escChar, parseStrBody, escBody, ih']
    · simp [escChar, h1, h2, h3, h4, h5, h6, h7, parseStrBody, escBody, ih']

/-- The first character of any printed JSON value is not whitespace and not
a closing delimiter. -/
theorem printVal_head (v : Json) :
    ∃ c t, printVal v = c :: t ∧ isJsonWs c = false ∧ c ≠ ']' ∧ c ≠ '}' := by
  cases v with
  | null =>
    exact ⟨'n', ['u', 'l', 'l'], by simp [printVal], by decide, by decide, by decide⟩
  | bool b =>
    cases b with
    | true =>
      exact ⟨'t', ['r', 'u', 'e'], by simp [printVal], by decide, by decide, by decide⟩
    | false =>
      exact ⟨'f', ['a', 'l', 's', 'e'], by simp [printVal], by decide, by decide,
        by decide⟩
  | num n =>
    by_cases hn : n < 0
    · refine ⟨'-', natDigits (-n).toNat, ?_, by decide, by decide, by decide⟩
      simp [printVal, intDigits, hn]
    · obtain ⟨d, t, hdt⟩ : ∃ d t, natDigits n.toNat = d :: t := by
        cases hnd : natDigits n.toNat with
        | nil => exact absurd hnd (natDigits_ne_nil _)
        | cons x xs => exact ⟨x, xs, rfl⟩
      have hd : isDigitCh d = true := by
        refine natDigits_all_digits n.toNat d ?_
        rw [hdt]; exact List.mem_cons_self d t
      obtain ⟨hws, hrb, hcb, _, _, _, _, _, _⟩ := digit_not_special d hd
      refine ⟨d, t, ?_, hws, hrb, hcb⟩
      simp [printVal, intDigits, hn, hdt]
  | str s =>
    refine ⟨'"', escBody s.data ++ ['"'], ?_, by decide, by decide, by decide⟩
    simp [printVal, strLit]
  | arr xs =>
    cases xs with
    | nil => exact ⟨'[', [']'], by simp [printVal], by decide, by decide, by decide⟩
    | cons x r =>
      exact ⟨'[', printVal x ++ (printArrRest r ++ [']']), by simp [printVal],
        by decide, by decide, by decide⟩
  | obj kvs =>
    cases kvs with
    | nil => exact ⟨'{', ['}'], by simp [printVal], by decide, by decide, by decide⟩
    | cons kv r =>
      exact ⟨'{', printMember kv ++ (printObjRest r ++ ['}']), by simp [printVal],
        by decide, by decide, by decide⟩

/-- "The next character is not a digit": the side condition under which a
printed number token cannot be extended by what follows it. -/
def noDigit (rest : List Char) : Prop :=
  ∀ c, rest.head? = some c → isDigitCh c = false

theorem noDigit_nil : noDigit [] := by intro c h; cases h

theorem noDigit_cons (c : Char) (t : List Char) (h : isDigitCh c = false) :
    noDigit (c :: t) := by
  intro d hd
  cases hd
  exact h

theorem noDigit_printArrRest (xs : List Json) (rest : List Char) :
    noDigit (printArrRest xs ++ ']' :: rest) := by
  cases xs with
  | nil => exact noDigit_cons _ _ (by decide)
  | cons x r =>
    simp only [printArrRest, List.cons_append]
    exact noDigit_cons _ _ (by decide)

theorem noDigit_printObjRest (kvs : List (String × Json)) (rest : List Char) :
    noDigit (printObjRest kvs ++ '}' :: rest) := by
  cases kvs with
  | nil => exact noDigit_cons _ _ (by decide)
  | cons kv r =>
    simp only [printObjRest, List.cons_append]
    exact noDigit_cons _ _ (by decide)

mutual

/-- Fuel sufficient for `parseVal` to read back a printed value. -/
def fuelV : Json → Nat
  | .arr xs => 1 + fuelL xs
  | .obj kvs => 1 + fuelKL kvs
  | _ => 1

/-- Fuel sufficient for the array body/tail parsers on a printed list. -/
def fuelL : List Json → Nat
  | [] => 1
  | x :: rest => 1 + fuelV x + fuelL rest

/-- Fuel sufficient for the object body/tail parsers on printed members
(one extra tick per member for `parseColonVal`). -/
def fuelKL : List (String × Json) → Nat
  | [] => 1
  | kv :: rest => 2 + fuelV kv.2 + fuelKL rest

end

/-- `parseArrBody` on a non-`]`, non-whitespace head proceeds to parse a first
element. -/
theorem parseArrBody_cons (fuel : Nat) (c : Char) (u : List Char)
    (hws : isJsonWs c = false) (hrb : c ≠ ']') :
    parseArrBody (fuel + 1) (c :: u) =
      (parseVal fuel (c :: u)).bind fun p =>
        (parseArrRest fuel p.2).map fun q => (Json.arr (p.1 :: q.1), q.2) := by
  rw [parseArrBody.eq_def]
  simp [skipWs_cons c u hws, hrb]

mutual

/-- A printed JSON value parses back to itself, leaving `rest`, given enough
fuel and a follow-set that cannot extend a number token. -/
theorem rtVal (v : Json) (rest : List Char) (fuel : Nat)
    (hf : fuelV v ≤ fuel) (hrest : noDigit rest) :
    parseVal fuel (printVal v ++ rest) = some (v, rest) := by
  obtain ⟨f, rfl⟩ : ∃ f, fuel = f + 1 := by
    refine ⟨fuel - 1, ?_⟩
    have h1 : 1 ≤ fuelV v := by cases v <;> simp [fuelV]
    omega
  cases v with
  | null =>
    have hp : printVal Json.null = ['n', 'u', 'l', 'l'] := by simp [printVal]
    rw [hp]
    rfl
  | bool b =>
    cases b with
    | true =>
      have hp : printVal (Json.bool true) = ['t', 'r', 'u', 'e'] := by simp [printVal]
      rw [hp]
      rfl
    | false =>
      have hp : printVal (Json.bool false) = ['f', 'a', 'l', 's', 'e'] := by
        simp [printVal]
      rw [hp]
      rfl
  | num n =>
    by_cases hn : n < 0
    · have hp : printVal (Json.num n) = '-' :: natDigits (-n).toNat := by
        simp [printVal, intDigits, hn]
      rw [hp]
      show (parseNum ('-' :: (natDigits (-n).toNat ++ rest))).map
          (fun p => (Json.num p.1, p.2)) = some (Json.num n, rest)
      have harg : '-' :: (natDigits (-n).toNat ++ rest) = intDigits n ++ rest := by
        simp [intDigits, hn]
      rw [harg, parseNum_rt n rest hrest]
      rfl
    · obtain ⟨d, t, hdt⟩ : ∃ d t, natDigits n.toNat = d :: t := by
        cases hnd : natDigits n.toNat with
        | nil => exact absurd hnd (natDigits_ne_nil _)
        | cons x xs => exact ⟨x, xs, rfl⟩
      have hd : isDigitCh d = true := by
        refine natDigits_all_digits n.toNat d ?_
        rw [hdt]; exact List.mem_cons_self d t
      have hp : printVal (Json.num n) = d :: t := by
        simp [printVal, intDigits, hn, hdt]
      rw [hp]
      have hred : parseVal (f + 1) ((d :: t) ++ rest) =
          (parseNum ((d :: t) ++ rest)).map (fun p => (Json.num p.1, p.2)) := by
        rcases digit_cases d hd with h | h | h | h | h | h | h | h | h | h <;>
          subst h <;> rfl
      rw [hred, ← hdt]
      have harg : natDigits n.toNat ++ rest = intDigits n ++ rest := by
        simp [intDigits, hn]
      rw [harg, parseNum_rt n rest hrest]
      rfl
  | str s =>
    have hp : printVal (Json.str s) = '"' :: (escBody s.data ++ ['"']) := by
      simp [printVal, strLit]
    rw [hp]
    show (parseStrBody ((escBody s.data ++ ['"']) ++ rest)).map
        (fun p => (Json.str (String.mk p.1), p.2)) = some (Json.str s, rest)
    rw [List.append_assoc, List.singleton_append, parseStrBody_rt s.data rest]
    rfl
  | arr xs =>
    cases xs with
    | nil =>
      have h2 : fuelV (Json.arr []) = 2 := by simp [fuelV, fuelL]
      obtain ⟨f', rfl⟩ : ∃ f', f = f' + 1 := ⟨f - 1, by omega⟩
      have hp : printVal (Json.arr []) = ['[', ']'] := by simp [printVal]
      rw [hp]
      rfl
    | cons x xs' =>
      have hfe : fuelV (Json.arr (x :: xs')) = 2 + fuelV x + fuelL xs' := by
        simp [fuelV, fuelL]; omega
      obtain ⟨f', rfl⟩ : ∃ f', f = f' + 1 := ⟨f - 1, by omega⟩
      have hp : printVal (Json.arr (x :: xs')) =
          '[' :: (printVal x ++ (printArrRest xs' ++ [']'])) := by
        simp [printVal]
      rw [hp]
      show parseArrBody (f' + 1)
          ((printVal x ++ (printArrRest xs' ++ [']'])) ++ rest) =
        some (Json.arr (x :: xs'), rest)
      rw [List.append_assoc, List.append_assoc, List.singleton_append]
      obtain ⟨c, t, hx, hws, hrb, hcb⟩ := printVal_head x
      rw [hx, List.cons_append]
      rw [parseArrBody_cons f' c _ hws hrb]
      have hback : c :: (t ++ (printArrRest xs' ++ (']' :: rest))) =
          printVal x ++ (printArrRest xs' ++ (']' :: rest)) := by
        rw [hx]; rfl
      rw [hback]
      rw [rtVal x (printArrRest xs' ++ ']' :: rest) f' (by omega)
        (noDigit_printArrRest xs' rest)]
      show (parseArrRest f' (printArrRest xs' ++ ']' :: rest)).map
          (fun q => (Json.arr (x :: q.1), q.2)) = some (Json.arr (x :: xs'), rest)
      rw [rtArrRest xs' rest f' (by omega) hrest]
      rfl
  | obj kvs =>
    cases kvs with
    | nil =>
      have h2 : fuelV (Json.obj []) = 2 := by simp [fuelV, fuelKL]
      obtain ⟨f', rfl⟩ : ∃ f', f = f' + 1 := ⟨f - 1, by omega⟩
      have hp : printVal (Json.obj []) = ['{', '}'] := by simp [printVal]
      rw [hp]
      rfl
    | cons kv kvs' =>
      obtain ⟨k, v, rfl⟩ : ∃ k v, kv = (k, v) := ⟨kv.1, kv.2, rfl⟩
      have hfe : fuelV (Json.obj ((k, v) :: kvs')) = 3 + fuelV v + fuelKL kvs' := by
        simp [fuelV, fuelKL]; omega
      have hkl1 : 1 ≤ fuelKL kvs' := by cases kvs' <;> simp [fuelKL] <;> omega
      have hv1 : 1 ≤ fuelV v := by cases v <;> simp [fuelV]
      obtain ⟨f', rfl⟩ : ∃ f', f = f' + 1 := ⟨f - 1, by omega⟩
      obtain ⟨f'', rfl⟩ : ∃ f'', f' = f'' + 1 := ⟨f' - 1, by omega⟩
      have hp : printVal (Json.obj ((k, v) :: kvs')) =
          '{' :: ('"' :: (escBody k.data ++
            ('"' :: (':' :: (printVal v ++ (printObjRest kvs' ++ ['}'])))))) := by
        simp [printVal, printMember, strLit]
      rw [hp]
      show (parseStrBody ((escBody k.data ++
          ('"' :: (':' :: (printVal v ++ (printObjRest kvs' ++ ['}']))))) ++ rest)).bind
        (fun pk => (parseColonVal (f'' + 1) pk.2).bind fun pv =>
          (parseObjRest (f'' + 1) pv.2).map fun q =>
            (Json.obj ((String.mk pk.1, pv.1) :: q.1), q.2)) =
        some (Json.obj ((k, v) :: kvs'), rest)
      rw [List.append_assoc]
      simp only [List.cons_append, List.append_assoc, List.singleton_append,
        List.nil_append]
      rw [parseStrBody_rt k.data
        (':' :: (printVal v ++ (printObjRest kvs' ++ ('}' :: rest))))]
      show (parseVal f'' (printVal v ++ (printObjRest kvs' ++ ('}' :: rest)))).bind
        (fun pv => (parseObjRest (f'' + 1) pv.2).map fun q =>
          (Json.obj ((String.mk k.data, pv.1) :: q.1), q.2)) =
        some (Json.obj ((k, v) :: kvs'), rest)
      rw [rtVal v (printObjRest kvs' ++ '}' :: rest) f'' (by omega)
        (noDigit_printObjRest kvs' rest)]
      show (parseObjRest (f'' + 1) (printObjRest kvs' ++ '}' :: rest)).map
          (fun q => (Json.obj ((String.mk k.data, v) :: q.1), q.2)) =
        some (Json.obj ((k, v) :: kvs'), rest)
      rw [rtObjRest kvs' rest (f'' + 1) (by omega) hrest]
      rfl
termination_by sizeOf v
decreasing_by all_goals (subst_vars; try simp; try omega)

/-- Printed array tails parse back to themselves. -/
theorem rtArrRest (xs : List Json) (rest : List Char) (fuel : Nat)
    (hf : fuelL xs ≤ fuel) (hrest : noDigit rest) :
    parseArrRest fuel (printArrRest xs ++ ']' :: rest) = some (xs, rest) := by
  obtain ⟨f, rfl⟩ : ∃ f, fuel = f + 1 := by
    refine ⟨fuel - 1, ?_⟩
    have h1 : 1 ≤ fuelL xs := by cases xs <;> simp [fuelL] <;> omega
    omega
  cases xs with
  | nil =>
    have hp : printArrRest ([] : List Json) = [] := by simp [printArrRest]
    rw [hp, List.nil_append]
    rfl
  | cons x xs' =>
    have hfe : fuelL (x :: xs') = 1 + fuelV x + fuelL xs' := by simp [fuelL]
    have hp : printArrRest (x :: xs') =
        ',' :: (printVal x ++ printArrRest xs') := by
      simp [printArrRest]
    rw [hp]
    show (parseVal f ((printVal x ++ printArrRest xs') ++ (']' :: rest))).bind
        (fun p => (parseArrRest f p.2).map fun q => (p.1 :: q.1, q.2)) =
      some (x :: xs', rest)
    rw [List.append_assoc]
    rw [rtVal x (printArrRest xs' ++ ']' :: rest) f (by omega)
      (noDigit_printArrRest xs' rest)]
    show (parseArrRest f (printArrRest xs' ++ ']' :: rest)).map
        (fun q => (x :: q.1, q.2)) = some (x :: xs', rest)
    rw [rtArrRest xs' rest f (by omega) hrest]
    rfl
termination_by sizeOf xs
decreasing_by all_goals (subst_vars; try simp; try omega)

/-- Printed object tails parse back to themselves. -/
theorem rtObjRest (kvs : List (String × Json)) (rest : List Char) (fuel : Nat)
    (hf : fuelKL kvs ≤ fuel) (hrest : noDigit rest) :
    parseObjRest fuel (printObjRest kvs ++ '}' :: rest) = some (kvs, rest) := by
  obtain ⟨f, rfl⟩ : ∃ f, fuel = f + 1 := by
    refine ⟨fuel - 1, ?_⟩
    have h1 : 1 ≤ fuelKL kvs := by cases kvs <;> simp [fuelKL] <;> omega
    omega
  cases kvs with
  | nil =>
    have hp : printObjRest ([] : List (String × Json)) = [] := by simp [printObjRest]
    rw [hp, List.nil_append]
    rfl
  | cons kv kvs' =>
    obtain ⟨k, v, rfl⟩ : ∃ k v, kv = (k, v) := ⟨kv.1, kv.2, rfl⟩
    have hfe : fuelKL ((k, v) :: kvs') = 2 + fuelV v + fuelKL kvs' := by
      simp [fuelKL]
    have hkl1 : 1 ≤ fuelKL kvs' := by cases kvs' <;> simp [fuelKL] <;> omega
    have hv1 : 1 ≤ fuelV v := by cases v <;> simp [fuelV]
    obtain ⟨f', rfl⟩ : ∃ f', f = f' + 1 := ⟨f - 1, by omega⟩
    have hp : printObjRest ((k, v) :: kvs') =
        ',' :: ('"' :: (escBody k.data ++
          ('"' :: (':' :: (printVal v ++ printObjRest kvs'))))) := by
      simp [printObjRest, printMember, strLit]
    rw [hp]
    show (parseStrBody ((escBody k.data ++
        ('"' :: (':' :: (printVal v ++ printObjRest kvs')))) ++ ('}' :: rest))).bind
      (fun pk => (parseColonVal (f' + 1) pk.2).bind fun pv =>
        (parseObjRest (f' + 1) pv.2).map fun q =>
          ((String.mk pk.1, pv.1) :: q.1, q.2)) =
      some ((k, v) :: kvs', rest)
    simp only [List.cons_append, List.append_assoc, List.singleton_append,
      List.nil_append]
    rw [parseStrBody_rt k.data
      (':' :: (printVal v ++ (printObjRest kvs' ++ ('}' :: rest))))]
    show (parseVal f' (printVal v ++ (printObjRest kvs' ++ ('}' :: rest)))).bind
      (fun pv => (parseObjRest (f' + 1) pv.2).map fun q =>
        ((String.mk k.data, pv.1) :: q.1, q.2)) =
      some ((k, v) :: kvs', rest)
    rw [rtVal v (printObjRest kvs' ++ '}' :: rest) f' (by omega)
      (noDigit_printObjRest kvs' rest)]
    show (parseObjRest (f' + 1) (printObjRest kvs' ++ '}' :: rest)).map
        (fun q => ((String.mk k.data, v) :: q.1, q.2)) =
      some ((k, v) :: kvs', rest)
    rw [rtObjRest kvs' rest (f' + 1) (by omega) hrest]
    rfl
termination_by sizeOf kvs
decreasing_by all_goals (subst_vars; try simp; try omega)

end

mutual

/-- The fuel needed to re-read a printed value is within the fuel budget
`parseJson` allots per input character. -/
theorem fuelV_le (v : Json) : fuelV v ≤ 2 * (printVal v).length := by
  cases v with
  | null => simp [fuelV, printVal]
  | bool b => cases b <;> simp [fuelV, printVal]
  | num n =>
    have h1 : (printVal (Json.num n)).length ≥ 1 := by
      obtain ⟨c, t, hx, _, _, _⟩ := printVal_head (Json.num n)
      rw [hx]; simp
    have h2 : fuelV (Json.num n) = 1 := by simp [fuelV]
    omega
  | str s =>
    have h2 : fuelV (Json.str s) = 1 := by simp [fuelV]
    have h1 : (printVal (Json.str s)).length ≥ 1 := by
      obtain ⟨c, t, hx, _, _, _⟩ := printVal_head (Json.str s)
      rw [hx]; simp
    omega
  | arr xs =>
    cases xs with
    | nil =>
      have h2 : fuelV (Json.arr []) = 2 := by simp [fuelV, fuelL]
      have h1 : printVal (Json.arr []) = ['[', ']'] := by simp [printVal]
      rw [h2, h1]
      simp
    | cons x xs' =>
      have hx := fuelV_le x
      have hxs := fuelL_le xs'
      have h2 : fuelV (Json.arr (x :: xs')) = 2 + fuelV x + fuelL xs' := by
        simp [fuelV, fuelL]; omega
      have h1 : (printVal (Json.arr (x :: xs'))).length =
          2 + (printVal x).length + (printArrRest xs').length := by
        have hp : printVal (Json.arr (x :: xs')) =
            '[' :: (printVal x ++ (printArrRest xs' ++ [']'])) := by simp [printVal]
        rw [hp]; simp; omega
      omega
  | obj kvs =>
    cases kvs with
    | nil =>
      have h2 : fuelV (Json.obj []) = 2 := by simp [fuelV, fuelKL]
      have h1 : printVal (Json.obj []) = ['{', '}'] := by simp [printVal]
      rw [h2, h1]
      simp
    | cons kv kvs' =>
      obtain ⟨k, v, rfl⟩ : ∃ k v, kv = (k, v) := ⟨kv.1, kv.2, rfl⟩
      have hv := fuelV_le v
      have hkvs := fuelKL_le kvs'
      have h2 : fuelV (Json.obj ((k, v) :: kvs')) = 3 + fuelV v + fuelKL kvs' := by
        simp [fuelV, fuelKL]; omega
      have h1 : (printVal (Json.obj ((k, v) :: kvs'))).length =
          5 + (escBody k.data).length + (printVal v).length +
            (printObjRest kvs').length := by
        have hp : printVal (Json.obj ((k, v) :: kvs')) =
            '{' :: ('"' :: (escBody k.data ++
              ('"' :: (':' :: (printVal v ++ (printObjRest kvs' ++ ['}'])))))) := by
          simp [printVal, printMember, strLit]
        rw [hp]; simp; omega
      omega
termination_by sizeOf v

theorem fuelL_le (xs : List Json) : fuelL xs ≤ 2 * (printArrRest xs).length + 1 := by
  cases xs with
  | nil => simp [fuelL, printArrRest]
  | cons x xs' =>
    have hx := fuelV_le x
    have hxs := fuelL_le xs'
    have h2 : fuelL (x :: xs') = 1 + fuelV x + fuelL xs' := by simp [fuelL]
    have h1 : (printArrRest (x :: xs')).length =
        1 + (printVal x).length + (printArrRest xs').length := by
      have hp : printArrRest (x :: xs') = ',' :: (printVal x ++ printArrRest xs') := by
        simp [printArrRest]
      rw [hp]; simp; omega
    omega
termination_by sizeOf xs

theorem fuelKL_le (kvs : List (String × Json)) :
    fuelKL kvs ≤ 2 * (printObjRest kvs).length + 1 := by
  cases kvs with
  | nil => simp [fuelKL, printObjRest]
  | cons kv kvs' =>
    obtain ⟨k, v, rfl⟩ : ∃ k v, kv = (k, v) := ⟨kv.1, kv.2, rfl⟩
    have hv := fuelV_le v
    have hkvs := fuelKL_le kvs'
    have h2 : fuelKL ((k, v) :: kvs') = 2 + fuelV v + fuelKL kvs' := by simp [fuelKL]
    have h1 : (printObjRest ((k, v) :: kvs')).length =
        4 + (escBody k.data).length + (printVal v).length +
          (printObjRest kvs').length := by
      have hp : printObjRest ((k, v) :: kvs') =
          ',' :: ('"' :: (escBody k.data ++
            ('"' :: (':' :: (printVal v ++ printObjRest kvs'))))) := by
        simp [printObjRest, printMember, strLit]
      rw [hp]; simp; omega
    omega
termination_by sizeOf kvs

end

/-- Round-trip: `JSON.parse` of `JSON.stringify v` recovers `v` exactly, for
every modelled JSON value. -/
theorem parseJson_stringify (v : Json) : parseJson (stringifyJson v) = .ok v := by
  have hlen : (stringifyJson v).data = printVal v := rfl
  rw [parseJson, hlen]
  have hfuel : fuelV v ≤ 2 * (printVal v).length + 2 := by
    have := fuelV_le v
    omega
  have hrt := rtVal v [] (2 * (printVal v).length + 2) hfuel noDigit_nil
  rw [List.append_nil] at hrt
  rw [hrt]
  rfl

/-! ## Node/JS string utilities used by the server -/

/-- JS whitespace for `trim` and `Number(...)` (ASCII subset; the Unicode
space characters JS also strips do not occur in the modelled inputs). -/
def isJsWs (c : Char) : Bool :=
  c = ' ' || c = '\t' || c = '\n' || c = '\r' || c = Char.ofNat 11 || c = Char.ofNat 12

/-- `String.prototype.trim`. -/
def jsTrim (s : String) : String :=
  String.mk (((s.data.dropWhile isJsWs).reverse.dropWhile isJsWs).reverse)

/-- Node `path.basename` (POSIX, one argument): skip trailing slashes, then
take the final component. -/
def jsBasename (p : String) : String :=
  String.mk ((p.data.reverse.dropWhile (· = '/')).takeWhile (· != '/')).reverse

/-- Node `path.extname`: the suffix of the final path component from its
last dot; empty when there is no dot or when the dot is the component's
first character. -/
def extname (p : String) : String :=
  let revBase := p.data.reverse.takeWhile (· != '/')
  let after := revBase.takeWhile (· != '.')
  if after.length = revBase.length then ""
  else if after.length + 1 = revBase.length then ""
  else String.mk ('.' :: after.reverse)

example : jsBasename "../../etc/passwd" = "passwd" := by decide
example : jsBasename "/" = "" := by decide
example : jsBasename "extract-v1.json" = "extract-v1.json" := by decide
example : extname "notes.webp" = ".webp" := by decide
example : extname "archive.tar.gz" = ".gz" := by decide
example : extname "README" = "" := by decide
example : extname ".gitignore" = "" := by decide

/-- Node `path.join(dir, b)` for the shapes arising here (`b` is a basename,
possibly empty; no normalization is needed for slash-free `b`). -/
def pathJoin (dir b : String) : String :=
  if b = "" then dir else dir ++ "/" ++ b

/-- RFC 4648 base64 alphabet. -/
def b64Char (n : Nat) : Char :=
  "ABCDEFGHIJKLMNOPQRSTUVWXYZabcdefghijklmnopqrstuvwxyz0123456789+/".data.getD n 'A'

/-- `Buffer.prototype.toString("base64")` over raw bytes. -/
def base64Encode : List Nat → List Char
  | a :: b :: c :: rest =>
    let n := (a % 256) * 65536 + (b % 256) * 256 + (c % 256)
    b64Char (n / 262144) :: b64Char (n / 4096 % 64) :: b64Char (n / 64 % 64) ::
      b64Char (n % 64) :: base64Encode rest
  | [a, b] =>
    let n := (a % 256) * 65536 + (b % 256) * 256
    [b64Char (n / 262144), b64Char (n / 4096 % 64), b64Char (n / 64 % 64), '=']
  | [a] =>
    let n := (a % 256) * 65536
    [b64Char (n / 262144), b64Char (n / 4096 % 64), '=', '=']
  | [] => []

example : String.mk (base64Encode [77, 97, 110]) = "TWFu" := by decide
example : String.mk (base64Encode [77, 97]) = "TWE=" := by decide

/-- `asDataUrl(buffer, mime)` from server.cjs. -/
def asDataUrl (buffer : List Nat) (mime : String) : String :=
  "data:" ++ mime ++ ";base64," ++ String.mk (base64Encode buffer)

/-! ## `Number(...)` string conversion -/

/-- A JS number as produced by `Number(...)` on a string: NaN, a signed
infinity, or a finite value.  Finite values are modelled as exact rationals
(IEEE rounding and overflow to infinity are outside the embedding; the
values the claims touch are exactly representable). -/
inductive JsNum where
  | nan
  | inf
  | neginf
  | fin (q : ℚ)
deriving DecidableEq, Repr

/-- Digit value in radix 2/8/16, or 255 for a non-digit. -/
def baseDigitVal (c : Char) : Nat :=
  if 48 ≤ c.toNat ∧ c.toNat ≤ 57 then c.toNat - 48
  else if 97 ≤ c.toNat ∧ c.toNat ≤ 102 then c.toNat - 87
  else if 65 ≤ c.toNat ∧ c.toNat ≤ 70 then c.toNat - 55
  else 255

/-- A `0x`/`0o`/`0b` literal body. -/
def parseRadix (base : Nat) (ds : List Char) : JsNum :=
  if ds ≠ [] ∧ ds.all (fun c => baseDigitVal c < base) then
    .fin ((ds.foldl (fun a c => a * base + baseDigitVal c) 0 : Nat) : ℚ)
  else .nan

/-- The exact value of a decimal literal `ip . fp e ex` (sign applied). -/
def decValue (neg : Bool) (ip fp : List Char) (ex : Int) : ℚ :=
  let m : ℚ := (digitsToNat ip : ℚ) + (digitsToNat fp : ℚ) / (10 : ℚ) ^ fp.length
  let p : ℚ := if 0 ≤ ex then (10 : ℚ) ^ ex.toNat else 1 / (10 : ℚ) ^ (-ex).toNat
  (if neg then -m else m) * p

/-- The optional exponent part of a decimal literal (must consume the whole
remaining input). -/
def parseExpTail (neg : Bool) (ip fp : List Char) (r : List Char) : JsNum :=
  match r with
  | [] => .fin (decValue neg ip fp 0)
  | e :: r4 =>
    if e = 'e' ∨ e = 'E' then
      let sr : Bool × List Char :=
        match r4 with
        | '+' :: r5 => (false, r5)
        | '-' :: r5 => (true, r5)
        | _ => (false, r4)
      let ds := sr.2.takeWhile isDigitCh
      if ds ≠ [] ∧ sr.2.dropWhile isDigitCh = [] then
        .fin (decValue neg ip fp ((if sr.1 then -1 else 1) * (digitsToNat ds : Int)))
      else .nan
    else .nan

/-- `StrUnsignedDecimalLiteral`: `Infinity`, or digits with optional
fraction and exponent. -/
def parseUnsignedDec (r : List Char) (neg : Bool) : JsNum :=
  if r = ['I', 'n', 'f', 'i', 'n', 'i', 't', 'y'] then
    if neg then .neginf else .inf
  else
    let ip := r.takeWhile isDigitCh
    let r1 := r.dropWhile isDigitCh
    match r1 with
    | '.' :: r2 =>
      let fp := r2.takeWhile isDigitCh
      let r3 := r2.dropWhile isDigitCh
      if ip = [] ∧ fp = [] then .nan
      else parseExpTail neg ip fp r3
    | _ =>
      if ip = [] then .nan
      else parseExpTail neg ip [] r1

/-- `Number(s)` for a string argument, per the `StringNumericLiteral`
grammar: trimmed; empty is 0; unsigned radix literals; otherwise an
optionally signed decimal literal or `Infinity`; anything else NaN. -/
def jsToNumber (s : String) : JsNum :=
  let t := ((s.data.dropWhile isJsWs).reverse.dropWhile isJsWs).reverse
  if t = [] then .fin 0
  else if t.take 2 = ['0', 'x'] ∨ t.take 2 = ['0', 'X'] then parseRadix 16 (t.drop 2)
  else if t.take 2 = ['0', 'o'] ∨ t.take 2 = ['0', 'O'] then parseRadix 8 (t.drop 2)
  else if t.take 2 = ['0', 'b'] ∨ t.take 2 = ['0', 'B'] then parseRadix 2 (t.drop 2)
  else
    match t with
    | '+' :: r => parseUnsignedDec r false
    | '-' :: r => parseUnsignedDec r true
    | _ => parseUnsignedDec t false

example : jsToNumber "0" = .fin 0 := by
  simp [jsToNumber, parseUnsignedDec, parseExpTail, decValue, digitsToNat, isDigitCh,
    isJsWs]
example : jsToNumber "200" = .fin 200 := by
  simp [jsToNumber, parseUnsignedDec, parseExpTail, decValue, digitsToNat, isDigitCh,
    isJsWs]
example : jsToNumber "5000" = .fin 5000 := by
  simp [jsToNumber, parseUnsignedDec, parseExpTail, decValue, digitsToNat, isDigitCh,
    isJsWs]
example : jsToNumber "3.5" = .fin (7 / 2) := by
  simp [jsToNumber, parseUnsignedDec, parseExpTail, decValue, digitsToNat, isDigitCh,
    isJsWs]
  norm_num
example : jsToNumber "-12" = .fin (-12) := by
  simp [jsToNumber, parseUnsignedDec, parseExpTail, decValue, digitsToNat, isDigitCh,
    isJsWs]
example : jsToNumber "abc" = .nan := by
  simp [jsToNumber, parseUnsignedDec, parseExpTail, decValue, digitsToNat, isDigitCh,
    isJsWs]
example : jsToNumber "" = .fin 0 := by
  simp [jsToNumber]
example : jsToNumber "Infinity" = .inf := by
  simp [jsToNumber, parseUnsignedDec, isJsWs]
example : jsToNumber "0x10" = .fin 16 := by
  simp [jsToNumber, parseRadix, baseDigitVal, isJsWs]

/-- `Math.min(a, b)` with a constant second argument. -/
def jsMin (a : JsNum) (b : ℚ) : JsNum :=
  match a with
  | .nan => .nan
  | .inf => .fin b
  | .neginf => .neginf
  | .fin q => .fin (min q b)

/-! ## The history store: `request_history` and its prepared statements -/

/-- One row of `request_history` (all columns after the migration).  A
`none` is SQL `NULL`. -/
structure HistoryRow where
  id : Int
  created_at : String
  request_type : Option String
  prompt : String
  response : Option String
  status : String
  error : Option String
  duration_ms : Option Int
  command_name : Option String
  file_name : Option String
  file_mime : Option String
  file_size : Option Int
  file_path : Option String
  openai_file_id : Option String
  result_json : Option String
deriving Repr, DecidableEq

/-- The SQLite database: the table rows (in insertion order) and the next
`AUTOINCREMENT` id. -/
structure Db where
  rows : List HistoryRow
  nextId : Int
deriving Repr, DecidableEq

/-- An `INSERT`: the store assigns the id and returns `lastInsertRowid`. -/
def Db.insert (db : Db) (r : HistoryRow) : Db × Int :=
  ({ rows := db.rows ++ [{ r with id := db.nextId }], nextId := db.nextId + 1 },
   db.nextId)

/-- The row shape written by `insertChatStmt` (file columns NULL). -/
def chatRow (created_at prompt : String) (response : Option String) (status : String)
    (error : Option String) (duration_ms : Int) : HistoryRow :=
  { id := 0, created_at := created_at, request_type := some "chat", prompt := prompt,
    response := response, status := status, error := error,
    duration_ms := some duration_ms, command_name := none, file_name := none,
    file_mime := none, file_size := none, file_path := none, openai_file_id := none,
    result_json := none }

/-- The projection returned by `listStmt`: every selected column — note the
`file_path` column is *not* selected — with
`COALESCE(request_type, 'chat')` applied. -/
structure ListedRow where
  id : Int
  created_at : String
  request_type : Option String
  prompt : String
  response : Option String
  status : String
  error : Option String
  duration_ms : Option Int
  command_name : Option String
  file_name : Option String
  file_mime : Option String
  file_size : Option Int
  openai_file_id : Option String
  result_json : Option String
deriving Repr, DecidableEq

/-- The `SELECT` list of `listStmt` applied to one row. -/
def projectListed (r : HistoryRow) : ListedRow :=
  { id := r.id, created_at := r.created_at,
    request_type := some (r.request_type.getD "chat"), prompt := r.prompt,
    response := r.response, status := r.status, error := r.error,
    duration_ms := r.duration_ms, command_name := r.command_name,
    file_name := r.file_name, file_mime := r.file_mime, file_size := r.file_size,
    openai_file_id := r.openai_file_id, result_json := r.result_json }

/-- `ORDER BY id DESC`. -/
def sortedDescById (rows : List HistoryRow) : List HistoryRow :=
  rows.mergeSort (fun a b => decide (b.id ≤ a.id))

/-- SQLite `LIMIT n`: a negative limit means no limit. -/
def sqlLimit (rows : List HistoryRow) (n : Int) : List HistoryRow :=
  if n < 0 then rows else rows.take n.toNat

/-- `listStmt.all({limit})`. -/
def listStmt (db : Db) (limit : Int) : List ListedRow :=
  (sqlLimit (sortedDescById db.rows) limit).map projectListed

/-! ## The HTTP handlers -/

/-- The upload delivered by multer: its metadata and its stored content.
`mimetype` is `""` when the client declared none (`file.mimetype || ""`);
`bytes` is the raw content at `path`; `textContent` is its UTF-8 decoding
(used by the TXT branch). -/
structure UploadedFile where
  originalname : String
  mimetype : String
  path : String
  size : Int
  bytes : List Nat
  textContent : String

/-- Outcomes of the external collaborators for one request, passed in as
data since the spec treats them as opaque capabilities.  `Except.error m`
models a thrown exception whose `message` is `m` (`none` = no message). -/
structure ExtCalls where
  pdfUpload : Except (Option String) String
  docxExtract : Except (Option String) (Option String)
  sharpPng : List Nat → Except (Option String) (List Nat)
  svc : Except (Option String) (Option String)

/-- A content part of the Responses API request. -/
inductive ContentPart where
  | input_text (text : Json)
  | input_image (image_url : String)
  | input_file (file_id : String)

/-- `String.prototype.startsWith`. -/
def strStartsWith (s pre : String) : Bool := pre.data.isPrefixOf s.data

/-- ASCII lowering of one character (`toLowerCase` on the ASCII names the
server handles). -/
def lowerChar (c : Char) : Char :=
  if 65 ≤ c.toNat ∧ c.toNat ≤ 90 then Char.ofNat (c.toNat + 32) else c

/-- `String.prototype.toLowerCase` (ASCII). -/
def strToLower (s : String) : String := String.mk (s.data.map lowerChar)

/-- `isImageExtOrMime(ext, mime)` from server.cjs. -/
def isImageExtOrMime (e mime : String) : Bool :=
  strStartsWith mime "image/" ||
    (strToLower e = ".jpg" || strToLower e = ".jpeg" || strToLower e = ".png" ||
      strToLower e = ".webp" || strToLower e = ".avif")

/-- `err?.message || fallback`. -/
def errMsg (m : Option String) : String :=
  match m with
  | some s => if s = "" then "Analyze failed." else s
  | none => "Analyze failed."

/-- Failure modes of `loadCommandSpec`. -/
inductive CmdErr where
  | notFound (safe : String)
  | parseFail (safe : String)
  | invalidSpec (safe : String)
deriving Repr, DecidableEq

/-- The `e.message` the handler surfaces for each `loadCommandSpec` failure
(the `parseFail` text is engine-dependent and modelled by a fixed string). -/
def cmdErrMessage : CmdErr → String
  | .notFound safe =>
    "Command spec not found: " ++ safe ++ ". Create it under ./commands/" ++ safe
  | .parseFail safe => "Unexpected token in JSON command spec " ++ safe
  | .invalidSpec safe =>
    "Command spec " ++ safe ++
      " must include \"schema_name\" and \"schema\" for JSON extraction."

/-- The filesystem path examined by `loadCommandSpec` (server.cjs lines
147–148): the commands directory joined with the basename of the request. -/
def cmdPath (commandsDir commandFile : String) : String :=
  pathJoin commandsDir (jsBasename commandFile)

/-- `loadCommandSpec(commandFile)`: sanitize to a basename, look the file up
in the commands directory (modelled as a filename-keyed map), `JSON.parse`
it, and require truthy `schema` and `schema_name`.  (Member access on a
non-object parse result yields `undefined` here; JS would throw a
`TypeError` on `null` — both surface as a 400 to the caller.) -/
def loadCommandSpec (commands : List (String × String)) (commandFile : String) :
    Except CmdErr Json :=
  let safe := jsBasename commandFile
  match (commands.find? (fun p => p.1 = safe)).map (·.2) with
  | none => .error (.notFound safe)
  | some raw =>
    match parseJson raw with
    | .error _ => .error (.parseFail safe)
    | .ok cmd =>
      if ¬ jsTruthyOpt (cmd.getField "schema") ∨
          ¬ jsTruthyOpt (cmd.getField "schema_name") then
        .error (.invalidSpec safe)
      else .ok cmd

/-- `cmd.name || path.basename(...)` — the stored `command_name` (non-string
truthy `name` fields are outside the model). -/
def cmdNameOr (cmd : Json) (fallback : String) : String :=
  match cmd.getField "name" with
  | some (Json.str s) => if s = "" then fallback else s
  | _ => fallback

/-- The appended prompt part:
`cmd.user_prompt || "Extract the required information from the provided input."`. -/
def userPromptPart (cmd : Json) : ContentPart :=
  .input_text
    (match cmd.getField "user_prompt" with
     | some v =>
       if v.jsTruthy then v
       else .str "Extract the required information from the provided input."
     | none => .str "Extract the required information from the provided input.")

/-- Responses of `POST /api/chat`. -/
inductive ChatResp where
  | badRequest (error : String)
  | okRes (output : String) (historyItem : HistoryRow)
  | serverError (error : String)
deriving Repr, DecidableEq

/-- `POST /api/chat` (server.cjs): trims the prompt, 400 when empty, calls
the service, inserts a success row and answers 200 — or, when the service
call throws, answers 500 with a generic message (the catch handler of this
route does not write any history row). -/
def chatHandler (promptField : Option String) (svc : Except (Option String) (Option String))
    (createdAt : String) (durationMs : Int) (db : Db) : ChatResp × Db :=
  let prompt := jsTrim (promptField.getD "")
  if prompt = "" then (.badRequest "Missing prompt.", db)
  else
    match svc with
    | .ok t =>
      let outputText := t.getD ""
      let row := chatRow createdAt prompt (some outputText) "success" none durationMs
      let ins := db.insert row
      (.okRes outputText { row with id := ins.2 }, ins.1)
    | .error _ => (.serverError "Server error calling OpenAI.", db)

/-- Responses of `POST /api/analyze-file`. -/
inductive FileResp where
  | badRequest (error : String)
  | okRes (result : Json) (historyItem : HistoryRow)
  | serverError (error : String) (historyItem : Option HistoryRow)

/-- The observable outcome of one `POST /api/analyze-file` request: the
response, the store afterwards, how many OpenAI API calls were made
(`files.create` and `responses.create`), and the content parts handed to
`responses.create` when it was invoked. -/
structure FileOut where
  resp : FileResp
  db : Db
  serviceCalls : Nat
  sentParts : Option (List ContentPart)

/-- `req.body?.command ? String(req.body.command) : "extract-v1.json"`
(the field is falsy exactly when absent or empty). -/
def resolvedCommandFile (commandField : Option String) : String :=
  match commandField with
  | some c => if c = "" then "extract-v1.json" else c
  | none => "extract-v1.json"

/-- `ext === ".pdf" || mime === "application/pdf"`. -/
def fileIsPdf (file : UploadedFile) : Bool :=
  strToLower (extname file.originalname) = ".pdf" || file.mimetype = "application/pdf"

/-- The DOCX classification test. -/
def fileIsDocx (file : UploadedFile) : Bool :=
  strToLower (extname file.originalname) = ".docx" ||
    file.mimetype =
      "application/vnd.openxmlformats-officedocument.wordprocessingml.document"

/-- The plain-text classification test. -/
def fileIsTxt (file : UploadedFile) : Bool :=
  strToLower (extname file.originalname) = ".txt" || strStartsWith file.mimetype "text/"

/-- The image classification test. -/
def fileIsImg (file : UploadedFile) : Bool :=
  isImageExtOrMime (strToLower (extname file.originalname)) file.mimetype

/-- The webp/avif re-encoding condition of the image branch. -/
def webpAvifCond (file : UploadedFile) : Bool :=
  strToLower (extname file.originalname) = ".webp" ||
    strToLower (extname file.originalname) = ".avif" ||
    file.mimetype = "image/webp" || file.mimetype = "image/avif"

/-- The media-type label of a passed-through image: `image/jpg` is
relabelled `image/jpeg`, and a falsy label defaults to `image/png`
(`outMime || "image/png"`). -/
def imageOutMime (file : UploadedFile) : String :=
  let outMime := if file.mimetype = "image/jpg" then "image/jpeg" else file.mimetype
  if outMime = "" then "image/png" else outMime

/-- The try block's construction of the upload's content part, together
with the OpenAI file id it may register and the number of service calls it
makes (the PDF branch uploads the document first). -/
def buildPart (file : UploadedFile) (ext : ExtCalls) :
    Except (Option String) (ContentPart × Option String) × Nat :=
  if fileIsPdf file then
    (ext.pdfUpload.map (fun fid => (ContentPart.input_file fid, some fid)), 1)
  else if fileIsDocx file then
    (ext.docxExtract.map (fun raw =>
      let text := jsTrim (raw.getD "")
      (ContentPart.input_text (.str
        (if text = "" then "(DOCX contained no extractable text.)" else text)),
       none)), 0)
  else if fileIsTxt file then
    (Except.ok (ContentPart.input_text (.str file.textContent), none), 0)
  else
    (if webpAvifCond file then
      (ext.sharpPng file.bytes).map (fun buf =>
        (ContentPart.input_image (asDataUrl buf "image/png"), none))
    else
      Except.ok (ContentPart.input_image (asDataUrl file.bytes (imageOutMime file)),
        none), 0)

/-- `response.output_text || "{}"`. -/
def jsonTextOf (t : Option String) : String :=
  match t with
  | some s => if s = "" then "{}" else s
  | none => "{}"

/-- The extraction result: `JSON.parse(jsonText)`, degrading to
`{_raw: jsonText}` when parsing throws. -/
def parsedOf (t : Option String) : Json :=
  match parseJson (jsonTextOf t) with
  | .ok v => v
  | .error _ => Json.obj [("_raw", Json.str (jsonTextOf t))]

/-- `POST /api/analyze-file` (server.cjs). -/
def analyzeFileHandler (file? : Option UploadedFile) (commandField : Option String)
    (commands : List (String × String)) (ext : ExtCalls) (createdAt : String)
    (durationMs : Int) (db : Db) : FileOut :=
  match file? with
  | none => ⟨.badRequest "Missing file.", db, 0, none⟩
  | some file =>
    let commandFile := resolvedCommandFile commandField
    match loadCommandSpec commands commandFile with
    | .error e => ⟨.badRequest (cmdErrMessage e), db, 0, none⟩
    | .ok cmd =>
      let mime := file.mimetype
      if ¬ (fileIsPdf file || fileIsDocx file || fileIsTxt file || fileIsImg file) then
        ⟨.badRequest "Unsupported file type. Allowed: PDF, DOCX, TXT, JPG/PNG/WEBP/AVIF.",
          db, 0, none⟩
      else
        -- the try block: build the upload's content part (the PDF branch is
        -- itself a service call), then make the one responses.create call
        match buildPart file ext with
        | (.error m, calls) =>
          -- the catch handler: persist the failed run, answer 500
          let row : HistoryRow :=
            { id := 0, created_at := createdAt, request_type := some "file",
              prompt := "Analyze file: " ++ file.originalname, response := none,
              status := "error", error := some (errMsg m),
              duration_ms := some durationMs,
              command_name := some (cmdNameOr cmd (jsBasename commandFile)),
              file_name := some file.originalname, file_mime := some mime,
              file_size := some file.size, file_path := some file.path,
              openai_file_id := none, result_json := none }
          let ins := db.insert row
          ⟨.serverError (errMsg m) (some { row with id := ins.2 }), ins.1, calls, none⟩
        | (.ok pf, calls) =>
          let parts := [pf.1, userPromptPart cmd]
          match ext.svc with
          | .error m =>
            let row : HistoryRow :=
              { id := 0, created_at := createdAt, request_type := some "file",
                prompt := "Analyze file: " ++ file.originalname, response := none,
                status := "error", error := some (errMsg m),
                duration_ms := some durationMs,
                command_name := some (cmdNameOr cmd (jsBasename commandFile)),
                file_name := some file.originalname, file_mime := some mime,
                file_size := some file.size, file_path := some file.path,
                openai_file_id := pf.2, result_json := none }
            let ins := db.insert row
            ⟨.serverError (errMsg m) (some { row with id := ins.2 }), ins.1,
              calls + 1, some parts⟩
          | .ok t =>
            let parsed := parsedOf t
            let row : HistoryRow :=
              { id := 0, created_at := createdAt, request_type := some "file",
                prompt := "Analyze file: " ++ file.originalname, response := none,
                status := "success", error := none, duration_ms := some durationMs,
                command_name := some (cmdNameOr cmd (jsBasename commandFile)),
                file_name := some file.originalname, file_mime := some mime,
                file_size := some file.size, file_path := some file.path,
                openai_file_id := pf.2, result_json := some (stringifyJson parsed) }
            let ins := db.insert row
            ⟨.okRes parsed { row with id := ins.2 }, ins.1, calls + 1, some parts⟩

/-- Responses of `GET /api/history`. -/
inductive HistoryResp where
  | items (xs : List ListedRow)
  | storeError
deriving Repr, DecidableEq

/-- `GET /api/history` (server.cjs):
`limit = Math.min(Number(req.query.limit || 200), 1000)`, then
`listStmt.all({limit})`.  A non-integer effective limit cannot be bound to
SQLite's integer `LIMIT` and surfaces as a store error (`storeError`); no
theorem below relies on that branch. -/
def historyHandler (limitParam : Option String) (db : Db) : HistoryResp :=
  let raw : JsNum :=
    match limitParam with
    | none => .fin 200
    | some s => if s = "" then .fin 200 else jsToNumber s
  match jsMin raw 1000 with
  | .fin q => if q.den = 1 then .items (listStmt db q.num) else .storeError
  | _ => .storeError

/-- Responses of `DELETE /api/history/:id`. -/
inductive DeleteResp where
  | badRequest (error : String)
  | okRes (deleted : Bool)
deriving Repr, DecidableEq

/-- `DELETE /api/history/:id` (server.cjs): 400 unless `Number(id)` is
finite; otherwise look the row up, try to unlink its `file_path` when
truthy and present on disk (a filesystem failure is logged and swallowed —
modelled by the `unlinkFails` oracle), then delete the row and report
whether anything was removed.  The filesystem is the set `fs` of existing
paths. -/
def deleteOneHandler (idStr : String) (db : Db) (fs : List String)
    (unlinkFails : String → Bool) : DeleteResp × Db × List String :=
  match jsToNumber idStr with
  | .fin q =>
    let row? := db.rows.find? (fun r => decide ((r.id : ℚ) = q))
    let fs' :=
      match row? with
      | some r =>
        match r.file_path with
        | some p =>
          if p ≠ "" then
            if p ∈ fs then
              if unlinkFails p then fs else fs.filter (fun x => x ≠ p)
            else fs
          else fs
        | none => fs
      | none => fs
    let changes := (db.rows.filter (fun r => decide ((r.id : ℚ) = q))).length
    (.okRes (decide (0 < changes)),
     { db with rows := db.rows.filter (fun r => ¬ ((r.id : ℚ) = q)) }, fs')
  | _ => (.badRequest "Invalid id.", db, fs)

/-- The `result` field of a file response, when the request succeeded. -/
def resultOf : FileResp → Option Json
  | .okRes r _ => some r
  | _ => none

/-! ## Generic facts about the embedding -/

/-- `path.basename` output never contains a separator. -/
theorem jsBasename_no_slash (p : String) : '/' ∉ (jsBasename p).data := by
  intro h
  have hdata : (jsBasename p).data =
      ((p.data.reverse.dropWhile (· = '/')).takeWhile (· != '/')).reverse := rfl
  rw [hdata, List.mem_reverse] at h
  have := List.mem_takeWhile_imp h
  simp at this

/-- Every listed item is the projection of some stored row. -/
theorem mem_listStmt (db : Db) (n : Int) (item : ListedRow)
    (h : item ∈ listStmt db n) : ∃ r ∈ db.rows, item = projectListed r := by
  simp only [listStmt, List.mem_map] at h
  obtain ⟨r, hr, rfl⟩ := h
  refine ⟨r, ?_, rfl⟩
  have hr2 : r ∈ sortedDescById db.rows := by
    simp only [sqlLimit] at hr
    split at hr
    · exact hr
    · exact List.mem_of_mem_take hr
  simpa [sortedDescById, List.mem_mergeSort] using hr2

/-! ## Fixtures for witnesses and counterexamples -/

/-- A small uploaded image (`notes.webp`). -/
def sampleWebp : UploadedFile :=
  { originalname := "notes.webp", mimetype := "image/webp",
    path := "/app/uploads/1700000000000-42.webp", size := 3, bytes := [1, 2, 3],
    textContent := "" }

/-- A small uploaded text file. -/
def sampleTxt : UploadedFile :=
  { originalname := "a.txt", mimetype := "text/plain", path := "/app/uploads/1-2.txt",
    size := 2, bytes := [104, 105], textContent := "hi" }

/-- A well-formed command-spec directory containing only the default spec. -/
def cmdsFixture : List (String × String) :=
  [("extract-v1.json",
    "\x7b\"schema_name\":\"s\",\"schema\":\x7b\"type\":\"object\"\x7d\x7d")]

/-- The parsed default spec of `cmdsFixture`. -/
def cmdFixtureJson : Json :=
  .obj [("schema_name", .str "s"), ("schema", .obj [("type", .str "object")])]

/-- External collaborators that all succeed; the service answers a small
JSON object. -/
def okExt : ExtCalls :=
  { pdfUpload := .ok "file-abc", docxExtract := .ok (some "hello"),
    sharpPng := fun _ => .ok [9, 9], svc := .ok (some "\x7b\"invoice\":12\x7d") }

/-- Collaborators whose `responses.create` call throws. -/
def svcFailExt : ExtCalls :=
  { pdfUpload := .ok "file-abc", docxExtract := .ok (some "hello"),
    sharpPng := fun _ => .ok [7], svc := .error (some "rate limited") }

/-- Collaborators whose service returns an empty `output_text`. -/
def emptySvcExt : ExtCalls :=
  { pdfUpload := .ok "file-abc", docxExtract := .ok (some "hello"),
    sharpPng := fun b => .ok b, svc := .ok (some "") }

/-- The empty store. -/
def emptyDb : Db := { rows := [], nextId := 1 }

/-- A store holding one chat row with id 3 and no artifact. -/
def dbRow3 : Db :=
  { rows :=
      [{ chatRow "2026-01-01T00:00:00.000Z" "hello" (some "hi") "success" none 5 with
          id := 3 }],
    nextId := 4 }

/-- A file row with id 3 whose artifact is `/u/a`. -/
def fileRow3 : HistoryRow :=
  { id := 3, created_at := "2026-01-01T00:00:00.000Z",
    request_type := some "file", prompt := "Analyze file: a.txt", response := none,
    status := "success", error := none, duration_ms := some 5,
    command_name := some "extract-v1.json", file_name := some "a.txt",
    file_mime := some "text/plain", file_size := some 2,
    file_path := some "/u/a", openai_file_id := none,
    result_json := some "{}" }

/-- A store holding only `fileRow3`. -/
def dbFileRow3 : Db := { rows := [fileRow3], nextId := 4 }

/-! ## C3: path-traversal hardening of command-spec resolution -/

/-- C3: command-spec resolution reduces the caller-supplied name to its
basename before the filesystem lookup, so the examined path is always the
commands directory itself or an immediate, slash-free entry of it; in
particular `"../../etc/passwd"` resolves to the basename `"passwd"` and
fails with the not-found error when that file is absent from the commands
directory. -/
theorem commandSpec_path_traversal_hardening :
    (∀ dir name : String,
        cmdPath dir name = dir ∨
        ∃ b, cmdPath dir name = dir ++ "/" ++ b ∧ b = jsBasename name ∧ b ≠ "" ∧
          '/' ∉ b.data) ∧
    jsBasename "../../etc/passwd" = "passwd" ∧
    ∀ commands : List (String × String),
      commands.find? (fun p => p.1 = "passwd") = none →
      loadCommandSpec commands "../../etc/passwd" = .error (.notFound "passwd") := by
  refine ⟨?_, by decide, ?_⟩
  · intro dir name
    by_cases hb : jsBasename name = ""
    · left
      simp [cmdPath, pathJoin, hb]
    · right
      exact ⟨jsBasename name, by simp [cmdPath, pathJoin, hb], rfl, hb,
        jsBasename_no_slash name⟩
  · intro commands hfind
    have hsafe : jsBasename "../../etc/passwd" = "passwd" := by decide
    simp [loadCommandSpec, hsafe, hfind]

/-- Witness for C3 at the concrete traversal attempt. -/
theorem commandSpec_path_traversal_hardening_witness :
    cmdPath "/srv/app/commands" "../../etc/passwd" = "/srv/app/commands/passwd" ∧
    loadCommandSpec [] "../../etc/passwd" = .error (.notFound "passwd") :=
  ⟨by decide, commandSpec_path_traversal_hardening.2.2 [] (by decide)⟩

/-! ## C5: invalid command specs fail before any service call -/

/-- C5: when the resolved command-spec file parses as JSON but its `schema`
or `schema_name` member is missing (or otherwise falsy), the request is
answered 400 with the invalid-spec message, no history record is written,
and no service call of any kind is made. -/
theorem invalidSpec_no_record_no_service
    (file : UploadedFile) (commandField : Option String)
    (commands : List (String × String)) (ext : ExtCalls) (createdAt : String)
    (durationMs : Int) (db : Db) (raw : String) (cmd : Json)
    (hfind : (commands.find?
        (fun p => p.1 = jsBasename (resolvedCommandFile commandField))).map (·.2) =
      some raw)
    (hparse : parseJson raw = .ok cmd)
    (hmiss : ¬ jsTruthyOpt (cmd.getField "schema") = true ∨
      ¬ jsTruthyOpt (cmd.getField "schema_name") = true) :
    analyzeFileHandler (some file) commandField commands ext createdAt durationMs db =
      { resp := .badRequest (cmdErrMessage
          (.invalidSpec (jsBasename (resolvedCommandFile commandField)))),
        db := db, serviceCalls := 0, sentParts := none } := by
  have hload : loadCommandSpec commands (resolvedCommandFile commandField) =
      .error (.invalidSpec (jsBasename (resolvedCommandFile commandField))) := by
    simp only [loadCommandSpec, hfind, hparse]
    rcases hmiss with h | h <;> simp [h]
  simp [analyzeFileHandler, hload]

/-- A command spec that parses but lacks both schema members. -/
def badSpecCmds : List (String × String) := [("extract-v1.json", "\x7b\"name\":\"x\"\x7d")]

/-- Witness for C5: the no-schema spec is rejected with 400, the store is
untouched and the service is never called. -/
theorem invalidSpec_no_record_no_service_witness :
    analyzeFileHandler (some sampleTxt) none badSpecCmds okExt "t" 1 emptyDb =
      { resp := .badRequest (cmdErrMessage (.invalidSpec "extract-v1.json")),
        db := emptyDb, serviceCalls := 0, sentParts := none } :=
  invalidSpec_no_record_no_service sampleTxt none badSpecCmds okExt "t" 1 emptyDb
    "\x7b\"name\":\"x\"\x7d" (Json.obj [("name", Json.str "x")])
    (by decide) rfl (Or.inl (by decide))

/-! ## C1: history records for failed requests -/

/-- Counterexample to C1 as stated: a chat request whose upstream call
throws gets a 500 response but inserts *no* history record at all — the
store is left empty, so there is no record with `status = "error"`
(`src/server.cjs`'s chat catch handler, unlike the file one, does not
persist anything). -/
theorem chat_failure_inserts_no_record_cex :
    (chatHandler (some "hi") (.error (some "boom")) "2026-01-01T00:00:00.000Z" 5
        emptyDb).2.rows = [] ∧
    (chatHandler (some "hi") (.error (some "boom")) "2026-01-01T00:00:00.000Z" 5
        emptyDb).1 = .serverError "Server error calling OpenAI." := by
  constructor <;> rfl

/-- The error row the file handler's catch branch writes (with the id the
store assigns). -/
def fileErrorRow (file : UploadedFile) (commandField : Option String) (cmd : Json)
    (fid : Option String) (createdAt : String) (durationMs : Int)
    (m : Option String) (idv : Int) : HistoryRow :=
  { id := idv, created_at := createdAt, request_type := some "file",
    prompt := "Analyze file: " ++ file.originalname, response := none,
    status := "error", error := some (errMsg m), duration_ms := some durationMs,
    command_name := some (cmdNameOr cmd (jsBasename (resolvedCommandFile commandField))),
    file_name := some file.originalname, file_mime := some file.mimetype,
    file_size := some file.size, file_path := some file.path,
    openai_file_id := fid, result_json := none }

/-- C1 (amended): when the upstream `responses.create` call of a *file*
request throws, exactly one history record is inserted — never zero, never
more than one — and it has `status = "error"` with a non-null error
message; a failed *chat* request inserts no record (the 500 response is
returned without persisting). -/
theorem upstream_failure_history_record
    (file : UploadedFile) (commandField : Option String)
    (commands : List (String × String)) (ext : ExtCalls) (createdAt : String)
    (durationMs : Int) (db : Db) (cmd : Json)
    (pf : ContentPart × Option String) (calls : Nat) (m : Option String)
    (promptField : Option String) (chatSvcMsg : Option String)
    (hload : loadCommandSpec commands (resolvedCommandFile commandField) = .ok cmd)
    (hsupp : (fileIsPdf file || fileIsDocx file || fileIsTxt file || fileIsImg file) =
      true)
    (hbuilt : buildPart file ext = (.ok pf, calls))
    (hsvc : ext.svc = .error m) :
    (∃ row,
      (analyzeFileHandler (some file) commandField commands ext createdAt durationMs
          db).db.rows = db.rows ++ [row] ∧
      row.status = "error" ∧ row.error = some (errMsg m) ∧ row.error ≠ none) ∧
    (chatHandler promptField (.error chatSvcMsg) createdAt durationMs db).2 = db := by
  constructor
  · refine ⟨fileErrorRow file commandField cmd pf.2 createdAt durationMs m db.nextId,
      ?_, rfl, rfl, by simp [fileErrorRow]⟩
    simp [analyzeFileHandler, hload, hsupp, hbuilt, hsvc, Db.insert, fileErrorRow]
  · simp only [chatHandler]
    split
    · rfl
    · rfl

/-- Witness for C1 at a concrete webp upload whose service call is
rate-limited, next to a concrete failed chat call. -/
theorem upstream_failure_history_record_witness :
    (∃ row,
      (analyzeFileHandler (some sampleWebp) none cmdsFixture svcFailExt "t" 1
          emptyDb).db.rows = emptyDb.rows ++ [row] ∧
      row.status = "error" ∧ row.error = some (errMsg (some "rate limited")) ∧
      row.error ≠ none) ∧
    (chatHandler (some "hi") (.error (some "rate limited")) "t" 1 emptyDb).2 =
      emptyDb :=
  upstream_failure_history_record sampleWebp none cmdsFixture svcFailExt "t" 1
    emptyDb cmdFixtureJson
    (ContentPart.input_image (asDataUrl [7] "image/png"), none) 0
    (some "rate limited") (some "hi") (some "rate limited")
    rfl (by decide) rfl rfl

/-! ## C2: deleteOne removes the row, its listing entry and its artifact -/

/-- Concrete `Number(...)` values reused below. -/
theorem jsToNumber_zero : jsToNumber "0" = .fin 0 := by
  simp [jsToNumber, parseUnsignedDec, parseExpTail, decValue, digitsToNat, isDigitCh,
    isJsWs]

theorem jsToNumber_three : jsToNumber "3" = .fin 3 := by
  simp [jsToNumber, parseUnsignedDec, parseExpTail, decValue, digitsToNat, isDigitCh,
    isJsWs]

theorem jsToNumber_5000 : jsToNumber "5000" = .fin 5000 := by
  simp [jsToNumber, parseUnsignedDec, parseExpTail, decValue, digitsToNat, isDigitCh,
    isJsWs]

theorem jsToNumber_threePointFive : jsToNumber "3.5" = .fin (7 / 2) := by
  simp [jsToNumber, parseUnsignedDec, parseExpTail, decValue, digitsToNat, isDigitCh,
    isJsWs]
  norm_num

theorem jsToNumber_abc : jsToNumber "abc" = .nan := by
  simp [jsToNumber, parseUnsignedDec, parseExpTail, decValue, digitsToNat, isDigitCh,
    isJsWs]

/-- For a valid id the response's `deleted` flag says whether a row with
that id existed. -/
theorem deleteOne_resp_fin (idStr : String) (q : ℚ) (db : Db) (fs : List String)
    (uf : String → Bool) (hq : jsToNumber idStr = .fin q) :
    (deleteOneHandler idStr db fs uf).1 =
      .okRes (db.rows.any (fun r => decide ((r.id : ℚ) = q))) := by
  simp only [deleteOneHandler, hq]
  congr 1
  rw [Bool.eq_iff_iff, decide_eq_true_iff, List.any_eq_true]
  constructor
  · intro hpos
    have hne : db.rows.filter (fun r => decide ((r.id : ℚ) = q)) ≠ [] := by
      intro hnil
      rw [hnil] at hpos
      simp at hpos
    obtain ⟨r, hr⟩ := List.exists_mem_of_ne_nil _ hne
    rw [List.mem_filter] at hr
    exact ⟨r, hr.1, hr.2⟩
  · intro ⟨r, hr, hid⟩
    have hmem : r ∈ db.rows.filter (fun r => decide ((r.id : ℚ) = q)) :=
      List.mem_filter.mpr ⟨hr, hid⟩
    have := List.length_pos_of_mem hmem
    omega

/-- C2: for a valid id, `DELETE /api/history/:id` removes exactly the rows
with that id and reports whether one existed; the row removal and the
report are the same whatever the unlink oracle does (a cleanup failure
never blocks them); afterwards the listing never contains the id; and when
the found record has a truthy `filePath` that exists on disk and the unlink
succeeds, the artifact is gone afterwards. -/
theorem deleteOne_removes_row_and_artifact
    (idStr : String) (q : ℚ) (db : Db) (fs : List String)
    (unlinkFails : String → Bool)
    (hq : jsToNumber idStr = .fin q) :
    (deleteOneHandler idStr db fs unlinkFails).2.1.rows =
      db.rows.filter (fun r => ¬ ((r.id : ℚ) = q)) ∧
    (deleteOneHandler idStr db fs unlinkFails).1 =
      .okRes (db.rows.any (fun r => decide ((r.id : ℚ) = q))) ∧
    (∀ n item, item ∈ listStmt (deleteOneHandler idStr db fs unlinkFails).2.1 n →
      ¬ ((item.id : ℚ) = q)) ∧
    (∀ r p, db.rows.find? (fun r' => decide ((r'.id : ℚ) = q)) = some r →
      r.file_path = some p → p ≠ "" → p ∈ fs → unlinkFails p = false →
      p ∉ (deleteOneHandler idStr db fs unlinkFails).2.2) := by
  have hrows : (deleteOneHandler idStr db fs unlinkFails).2.1.rows =
      db.rows.filter (fun r => ¬ ((r.id : ℚ) = q)) := by
    simp [deleteOneHandler, hq]
  refine ⟨hrows, deleteOne_resp_fin idStr q db fs unlinkFails hq, ?_, ?_⟩
  · intro n item hmem
    obtain ⟨r, hr, rfl⟩ := mem_listStmt _ n item hmem
    rw [hrows, List.mem_filter] at hr
    have := hr.2
    simpa [projectListed] using this
  · intro r p hfind hfp hne hmem hfail
    simp only [deleteOneHandler, hq, hfind, hfp, hne, hmem, hfail]
    simp [hne, hmem, hfail, List.mem_filter]

/-- Witness for C2: deleting row 3 of a one-row store removes the row, its
listing entry and its artifact `/u/a`. -/
theorem deleteOne_removes_row_and_artifact_witness :
    (deleteOneHandler "3" dbFileRow3 ["/u/a"] (fun _ => false)).2.1.rows =
      dbFileRow3.rows.filter (fun r => ¬ ((r.id : ℚ) = 3)) ∧
    (deleteOneHandler "3" dbFileRow3 ["/u/a"] (fun _ => false)).1 =
      .okRes (dbFileRow3.rows.any (fun r => decide ((r.id : ℚ) = 3))) ∧
    (∀ n item,
      item ∈ listStmt (deleteOneHandler "3" dbFileRow3 ["/u/a"] (fun _ => false)).2.1 n →
      ¬ ((item.id : ℚ) = 3)) ∧
    (∀ r p,
      dbFileRow3.rows.find? (fun r' => decide ((r'.id : ℚ) = 3)) = some r →
      r.file_path = some p → p ≠ "" → p ∈ ["/u/a"] → (fun _ => false) p = false →
      p ∉ (deleteOneHandler "3" dbFileRow3 ["/u/a"] (fun _ => false)).2.2) :=
  deleteOne_removes_row_and_artifact "3" 3 dbFileRow3 ["/u/a"] (fun _ => false)
    jsToNumber_three

/-! ## C4: the history limit -/

/-- The listing behavior claim C4 asserts (spec §6): the effective limit is
the caller's number clamped into `[1, 1000]` (default 200).  Stated from
the spec's words, for comparison with the implemented `historyHandler`. -/
def historySpecClamped (limitParam : Option String) (db : Db) : List ListedRow :=
  let raw : JsNum :=
    match limitParam with
    | none => .fin 200
    | some s => if s = "" then .fin 200 else jsToNumber s
  match raw with
  | .fin q => if q.den = 1 then listStmt db (max 1 (min q.num 1000)) else []
  | _ => []

/-- Counterexample to C4 as stated: with one stored row, `?limit=0` returns
zero records — the code computes `Math.min(Number(limit), 1000)` with no
lower clamp, so the effective limit is 0, while the claimed clamp into
`[1,1000]` would return the row. -/
theorem history_limit_clamp_cex :
    historyHandler (some "0") dbRow3 = .items [] ∧
    historySpecClamped (some "0") dbRow3 ≠ [] := by
  constructor
  · simp [historyHandler, jsToNumber_zero, jsMin, listStmt, sqlLimit]
  · simp [historySpecClamped, jsToNumber_zero, listStmt, sqlLimit, sortedDescById,
      List.mergeSort, dbRow3]

/-- Every listing the handler produces is sorted newest-first
(non-increasing ids). -/
theorem listStmt_sorted (db : Db) (n : Int) :
    (listStmt db n).Pairwise (fun a b => b.id ≤ a.id) := by
  have htrans : ∀ a b c : HistoryRow, decide (b.id ≤ a.id) = true →
      decide (c.id ≤ b.id) = true → decide (c.id ≤ a.id) = true := by
    intro a b c hab hbc
    simp only [decide_eq_true_iff] at *
    omega
  have htotal : ∀ a b : HistoryRow,
      (decide (b.id ≤ a.id) || decide (a.id ≤ b.id)) = true := by
    intro a b
    simp only [Bool.or_eq_true, decide_eq_true_iff]
    omega
  have hs : (sortedDescById db.rows).Pairwise (fun a b : HistoryRow => b.id ≤ a.id) := by
    have h := List.sorted_mergeSort htrans htotal db.rows
    exact h.imp (fun hab => by simpa using hab)
  have hsub : (sqlLimit (sortedDescById db.rows) n).Sublist (sortedDescById db.rows) := by
    simp only [sqlLimit]
    split
    · exact List.Sublist.refl _
    · exact List.take_sublist _ _
  exact (List.Pairwise.sublist hsub hs).map projectListed (fun a b hab => hab)

/-- C4 (amended): records come back newest-first; the limit defaults to 200
and is capped above at 1000 (`?limit=5000` yields at most 1000 records, and
any finite integer limit of at least 1000 behaves exactly like 1000) — but
there is no lower clamp: the code takes `Math.min(Number(limit), 1000)`
only, so `?limit=0` returns zero records (see the counterexample). -/
theorem history_listing_amended :
    (∀ db : Db, historyHandler none db = .items (listStmt db 200)) ∧
    (∀ db : Db, ∃ xs, historyHandler (some "5000") db = .items xs ∧
      xs.length ≤ 1000) ∧
    (∀ (lp : Option String) (db : Db) (xs : List ListedRow),
      historyHandler lp db = .items xs → xs.Pairwise (fun a b => b.id ≤ a.id)) ∧
    (∀ (s : String) (q : ℚ) (db : Db), s ≠ "" → jsToNumber s = .fin q → 1000 ≤ q →
      historyHandler (some s) db = .items (listStmt db 1000)) := by
  refine ⟨?_, ?_, ?_, ?_⟩
  · intro db
    have hmin : min (200 : ℚ) 1000 = 200 := by norm_num
    simp [historyHandler, jsMin, hmin]
  · intro db
    have hmin : min (5000 : ℚ) 1000 = 1000 := by norm_num
    refine ⟨listStmt db 1000, ?_, ?_⟩
    · simp [historyHandler, jsToNumber_5000, jsMin, hmin]
    · simp only [listStmt, List.length_map, sqlLimit]
      split
      · rename_i hlt
        omega
      · exact le_trans (List.length_take_le _ _) (by decide)
  · intro lp db xs h
    simp only [historyHandler] at h
    split at h
    · split at h
      · injection h with h'
        rw [← h']
        exact listStmt_sorted db _
      · cases h
    · cases h
  · intro s q db hs hq hq1000
    have hmin : min q (1000 : ℚ) = 1000 := min_eq_right hq1000
    simp [historyHandler, hs, hq, jsMin, hmin]

/-- Witness for C4's amended statement at a concrete store and limits. -/
theorem history_listing_amended_witness :
    historyHandler none dbRow3 = .items (listStmt dbRow3 200) ∧
    (∃ xs, historyHandler (some "5000") dbRow3 = .items xs ∧ xs.length ≤ 1000) ∧
    historyHandler (some "5000") dbRow3 = .items (listStmt dbRow3 1000) :=
  ⟨history_listing_amended.1 dbRow3,
   history_listing_amended.2.1 dbRow3,
   history_listing_amended.2.2.2 "5000" 5000 dbRow3 (by decide) jsToNumber_5000
     (by norm_num)⟩

/-! ## C6: the `{_raw: ...}` parse fallback -/

/-- Collaborators whose service returns non-JSON text. -/
def rawSvcExt : ExtCalls :=
  { pdfUpload := .ok "file-abc", docxExtract := .ok (some "hello"),
    sharpPng := fun b => .ok b, svc := .ok (some "hello") }

/-- Counterexample to C6 as stated: the empty service text fails to parse
as JSON, yet the caller receives `{}` — not `{_raw: ""}` — because the code
substitutes `"{}"` for a falsy `output_text` before parsing
(`response.output_text || "{}"`). -/
theorem raw_fallback_cex :
    parseJson "" = .error () ∧
    resultOf (analyzeFileHandler (some sampleTxt) none cmdsFixture emptySvcExt
        "t" 1 emptyDb).resp = some (Json.obj []) ∧
    Json.obj [] ≠ Json.obj [("_raw", Json.str "")] := by
  refine ⟨rfl, rfl, ?_⟩
  intro h
  simp at h

/-- C6 (amended): a *non-empty* service text that fails to parse as JSON is
wrapped as `{_raw: <text>}`, and a non-empty text that parses is returned
parsed; an empty or missing `output_text`, however, is replaced by the
string `"{}"` before parsing, so the caller receives the empty object
rather than `{_raw: ""}`. -/
theorem raw_fallback_amended
    (file : UploadedFile) (commandField : Option String)
    (commands : List (String × String)) (ext : ExtCalls) (createdAt : String)
    (durationMs : Int) (db : Db) (cmd : Json)
    (pf : ContentPart × Option String) (calls : Nat) (t : Option String)
    (hload : loadCommandSpec commands (resolvedCommandFile commandField) = .ok cmd)
    (hsupp : (fileIsPdf file || fileIsDocx file || fileIsTxt file || fileIsImg file) =
      true)
    (hbuilt : buildPart file ext = (.ok pf, calls))
    (hsvc : ext.svc = .ok t) :
    (∀ s, t = some s → s ≠ "" → parseJson s = .error () →
      resultOf (analyzeFileHandler (some file) commandField commands ext createdAt
          durationMs db).resp = some (Json.obj [("_raw", Json.str s)])) ∧
    (∀ s v, t = some s → s ≠ "" → parseJson s = .ok v →
      resultOf (analyzeFileHandler (some file) commandField commands ext createdAt
          durationMs db).resp = some v) ∧
    ((t = none ∨ t = some "") →
      resultOf (analyzeFileHandler (some file) commandField commands ext createdAt
          durationMs db).resp = some (Json.obj [])) := by
  have hout : resultOf (analyzeFileHandler (some file) commandField commands ext
      createdAt durationMs db).resp = some (parsedOf t) := by
    simp [analyzeFileHandler, hload, hsupp, hbuilt, hsvc, resultOf]
  refine ⟨?_, ?_, ?_⟩
  · intro s hts hs hp
    rw [hout, hts]
    simp [parsedOf, jsonTextOf, hs, hp]
  · intro s v hts hs hp
    rw [hout, hts]
    simp [parsedOf, jsonTextOf, hs, hp]
  · rintro (rfl | rfl)
    · rw [hout]; rfl
    · rw [hout]; rfl

/-- Witness for C6's amended statement: the non-JSON text `"hello"` comes
back wrapped as `{_raw: "hello"}`. -/
theorem raw_fallback_amended_witness :
    "hello" ≠ "" ∧ parseJson "hello" = .error () ∧
    resultOf (analyzeFileHandler (some sampleTxt) none cmdsFixture rawSvcExt
        "t" 1 emptyDb).resp = some (Json.obj [("_raw", Json.str "hello")]) :=
  ⟨by decide, rfl,
   (raw_fallback_amended sampleTxt none cmdsFixture rawSvcExt "t" 1 emptyDb
      cmdFixtureJson (ContentPart.input_text (.str "hi"), none) 0 (some "hello")
      rfl (by decide) rfl rfl).1 "hello" rfl (by decide) rfl⟩

/-! ## C7: id validation of DELETE /api/history/:id -/

/-- Counterexample to C7 as stated: `"3.5"` is not a valid integer, yet the
route does not answer 400 — `Number.isFinite(3.5)` holds, so the handler
proceeds and reports `{deleted: false}` (3.5 matches no row id). -/
theorem delete_nonInteger_id_cex :
    (deleteOneHandler "3.5" dbRow3 [] (fun _ => false)).1 = .okRes false ∧
    jsToNumber "3.5" = .fin (7 / 2) ∧ (7 / 2 : ℚ).den ≠ 1 := by
  refine ⟨?_, jsToNumber_threePointFive, by norm_num⟩
  have h := deleteOne_resp_fin "3.5" (7 / 2) dbRow3 [] (fun _ => false)
    jsToNumber_threePointFive
  rw [h]
  have : dbRow3.rows.any (fun r => decide ((r.id : ℚ) = 7 / 2)) = false := by
    simp [dbRow3, chatRow]
    norm_num
  rw [this]

/-- C7 (amended): the route answers 400 exactly when `Number(id)` is not
finite (NaN or an infinity); every finite value — integral or not — is
accepted, and the response then reports whether a row with that exact
numeric id existed.  In particular non-integer ids such as `"3.5"` are not
rejected (see the counterexample). -/
theorem delete_id_validation (idStr : String) (db : Db) (fs : List String)
    (uf : String → Bool) :
    ((deleteOneHandler idStr db fs uf).1 = .badRequest "Invalid id." ↔
      ∀ q : ℚ, jsToNumber idStr ≠ .fin q) ∧
    (∀ q : ℚ, jsToNumber idStr = .fin q →
      (deleteOneHandler idStr db fs uf).1 =
        .okRes (db.rows.any (fun r => decide ((r.id : ℚ) = q)))) := by
  constructor
  · cases h : jsToNumber idStr with
    | nan => simp [deleteOneHandler, h]
    | inf => simp [deleteOneHandler, h]
    | neginf => simp [deleteOneHandler, h]
    | fin q =>
      rw [deleteOne_resp_fin idStr q db fs uf h]
      constructor
      · intro hbad
        cases hbad
      · intro hall
        exact absurd rfl (hall q)
  · intro q hq
    exact deleteOne_resp_fin idStr q db fs uf hq

/-- Witness for C7's amended statement: `"abc"` converts to NaN and is
rejected with 400; `"3"` is accepted and deletes the matching row. -/
theorem delete_id_validation_witness :
    (deleteOneHandler "abc" dbRow3 [] (fun _ => false)).1 =
      .badRequest "Invalid id." ∧
    (deleteOneHandler "3" dbRow3 [] (fun _ => false)).1 =
      .okRes (dbRow3.rows.any (fun r => decide ((r.id : ℚ) = 3))) :=
  ⟨(delete_id_validation "abc" dbRow3 [] (fun _ => false)).1.mpr
      (fun q hq => by rw [jsToNumber_abc] at hq; cases hq),
   (delete_id_validation "3" dbRow3 [] (fun _ => false)).2 3 jsToNumber_three⟩

/-! ## C8: image normalisation -/

/-- C8: an uploaded image that is webp or avif (by extension or declared
media type) is re-encoded to PNG and dispatched as a base64 data-URL part
with media type `image/png`; any other image passes through unchanged as a
data-URL labelled `imageOutMime`, and a declared `image/jpg` is relabelled
`image/jpeg` when no re-encoding occurs. -/
theorem image_normalization
    (file : UploadedFile) (commandField : Option String)
    (commands : List (String × String)) (ext : ExtCalls) (createdAt : String)
    (durationMs : Int) (db : Db) (cmd : Json)
    (hload : loadCommandSpec commands (resolvedCommandFile commandField) = .ok cmd)
    (hpdf : fileIsPdf file = false) (hdocx : fileIsDocx file = false)
    (htxt : fileIsTxt file = false) (himg : fileIsImg file = true) :
    (∀ buf, webpAvifCond file = true → ext.sharpPng file.bytes = .ok buf →
      (analyzeFileHandler (some file) commandField commands ext createdAt durationMs
          db).sentParts =
        some [ContentPart.input_image (asDataUrl buf "image/png"),
          userPromptPart cmd]) ∧
    (webpAvifCond file = false →
      (analyzeFileHandler (some file) commandField commands ext createdAt durationMs
          db).sentParts =
        some [ContentPart.input_image (asDataUrl file.bytes (imageOutMime file)),
          userPromptPart cmd]) ∧
    (∀ f : UploadedFile, f.mimetype = "image/jpg" → imageOutMime f = "image/jpeg") := by
  refine ⟨?_, ?_, ?_⟩
  · intro buf hw hsharp
    have hb : buildPart file ext =
        (.ok (ContentPart.input_image (asDataUrl buf "image/png"), none), 0) := by
      simp [buildPart, hpdf, hdocx, htxt, hw, hsharp, Except.map]
    cases hsvc : ext.svc with
    | error m => simp [analyzeFileHandler, hload, hpdf, hdocx, htxt, himg, hb, hsvc]
    | ok t => simp [analyzeFileHandler, hload, hpdf, hdocx, htxt, himg, hb, hsvc]
  · intro hw
    have hb : buildPart file ext =
        (.ok (ContentPart.input_image (asDataUrl file.bytes (imageOutMime file)),
          none), 0) := by
      simp [buildPart, hpdf, hdocx, htxt, hw]
    cases hsvc : ext.svc with
    | error m => simp [analyzeFileHandler, hload, hpdf, hdocx, htxt, himg, hb, hsvc]
    | ok t => simp [analyzeFileHandler, hload, hpdf, hdocx, htxt, himg, hb, hsvc]
  · intro f hf
    simp [imageOutMime, hf]

/-- Witness for C8: `notes.webp` is re-encoded (the collaborators return
the PNG bytes `[9, 9]`) and sent as an `image/png` data-URL; a jpg-labelled
file would be relabelled `image/jpeg`. -/
theorem image_normalization_witness :
    (analyzeFileHandler (some sampleWebp) none cmdsFixture okExt "t" 1
        emptyDb).sentParts =
      some [ContentPart.input_image (asDataUrl [9, 9] "image/png"),
        userPromptPart cmdFixtureJson] ∧
    imageOutMime { sampleWebp with mimetype := "image/jpg" } = "image/jpeg" :=
  ⟨(image_normalization sampleWebp none cmdsFixture okExt "t" 1 emptyDb cmdFixtureJson
      rfl (by decide) (by decide) (by decide) (by decide)).1 [9, 9] (by decide) rfl,
   (image_normalization sampleWebp none cmdsFixture okExt "t" 1 emptyDb cmdFixtureJson
      rfl (by decide) (by decide) (by decide) (by decide)).2.2
     { sampleWebp with mimetype := "image/jpg" } rfl⟩

/-! ## C9: round-trip of the stored `result_json` -/

/-- The row the success path of `/api/analyze-file` persists. -/
def successRow (file : UploadedFile) (commandFile : String) (cmd : Json)
    (createdAt : String) (durationMs : Int) (fid : Option String)
    (t : Option String) (idv : Int) : HistoryRow :=
  { id := idv, created_at := createdAt, request_type := some "file",
    prompt := "Analyze file: " ++ file.originalname, response := none,
    status := "success", error := none, duration_ms := some durationMs,
    command_name := some (cmdNameOr cmd (jsBasename commandFile)),
    file_name := some file.originalname, file_mime := some file.mimetype,
    file_size := some file.size, file_path := some file.path,
    openai_file_id := fid, result_json := some (stringifyJson (parsedOf t)) }

/-- C9: on the success path the persisted row's `result_json` is the
stringified extraction result, and re-parsing that string yields exactly
the object returned to the client. -/
theorem resultJson_roundtrip
    (file : UploadedFile) (commandField : Option String)
    (commands : List (String × String)) (ext : ExtCalls) (createdAt : String)
    (durationMs : Int) (db : Db) (cmd : Json)
    (pf : ContentPart × Option String) (calls : Nat) (t : Option String)
    (hload : loadCommandSpec commands (resolvedCommandFile commandField) = .ok cmd)
    (hsupp : (fileIsPdf file || fileIsDocx file || fileIsTxt file || fileIsImg file) =
      true)
    (hbuilt : buildPart file ext = (.ok pf, calls))
    (hsvc : ext.svc = .ok t) :
    (analyzeFileHandler (some file) commandField commands ext createdAt durationMs
        db).resp =
      .okRes (parsedOf t)
        (successRow file (resolvedCommandFile commandField) cmd createdAt durationMs
          pf.2 t db.nextId) ∧
    (analyzeFileHandler (some file) commandField commands ext createdAt durationMs
        db).db.rows =
      db.rows ++ [successRow file (resolvedCommandFile commandField) cmd createdAt
        durationMs pf.2 t db.nextId] ∧
    (successRow file (resolvedCommandFile commandField) cmd createdAt durationMs
        pf.2 t db.nextId).result_json = some (stringifyJson (parsedOf t)) ∧
    parseJson (stringifyJson (parsedOf t)) = .ok (parsedOf t) := by
  refine ⟨?_, ?_, rfl, parseJson_stringify _⟩
  · simp [analyzeFileHandler, hload, hsupp, hbuilt, hsvc, Db.insert, successRow]
  · simp [analyzeFileHandler, hload, hsupp, hbuilt, hsvc, Db.insert, successRow]

/-- Witness for C9 at a concrete upload whose service answer is the JSON
text `{"invoice":12}`. -/
theorem resultJson_roundtrip_witness :
    (analyzeFileHandler (some sampleTxt) none cmdsFixture okExt "t" 1 emptyDb).resp =
      .okRes (parsedOf (some "\x7b\"invoice\":12\x7d"))
        (successRow sampleTxt "extract-v1.json" cmdFixtureJson "t" 1 none
          (some "\x7b\"invoice\":12\x7d") 1) ∧
    parseJson (stringifyJson (parsedOf (some "\x7b\"invoice\":12\x7d"))) =
      .ok (parsedOf (some "\x7b\"invoice\":12\x7d")) :=
  ⟨(resultJson_roundtrip sampleTxt none cmdsFixture okExt "t" 1 emptyDb cmdFixtureJson
      (ContentPart.input_text (.str "hi"), none) 0 (some "\x7b\"invoice\":12\x7d")
      rfl (by decide) rfl rfl).1,
   (resultJson_roundtrip sampleTxt none cmdsFixture okExt "t" 1 emptyDb cmdFixtureJson
      (ContentPart.input_text (.str "hi"), none) 0 (some "\x7b\"invoice\":12\x7d")
      rfl (by decide) rfl rfl).2.2.2⟩

/-! ## C10: the listing hides `file_path` and backfills `request_type` -/

/-- C10: every item the history listing returns is the `listStmt`
projection of a stored row; that projection carries no `file_path` column —
it is insensitive to the stored `file_path` — and its `request_type` is
never null: a row persisted with `request_type` NULL is reported as
`'chat'` (`COALESCE(request_type, 'chat')`). -/
theorem history_listing_shape (limitParam : Option String) (db : Db)
    (xs : List ListedRow) (h : historyHandler limitParam db = .items xs) :
    (∀ (r : HistoryRow) (f : Option String),
      projectListed { r with file_path := f } = projectListed r) ∧
    (∀ it ∈ xs, ∃ r ∈ db.rows, it = projectListed r) ∧
    (∀ it ∈ xs, it.request_type ≠ none) ∧
    (∀ r : HistoryRow, r.request_type = none →
      (projectListed r).request_type = some "chat") := by
  have hx : ∃ n : Int, xs = listStmt db n := by
    simp only [historyHandler] at h
    split at h
    · split at h
      · injection h with h'
        exact ⟨_, h'.symm⟩
      · cases h
    · cases h
  obtain ⟨n, rfl⟩ := hx
  refine ⟨fun r f => rfl, fun it hit => mem_listStmt db n it hit, ?_, ?_⟩
  · intro it hit
    obtain ⟨r, _, rfl⟩ := mem_listStmt db n it hit
    simp [projectListed]
  · intro r hr
    simp [projectListed, hr]

/-- Witness for C10: the projection of a file row is unchanged when its
`file_path` is dropped, and a NULL `request_type` is listed as `'chat'`. -/
theorem history_listing_shape_witness :
    projectListed { fileRow3 with file_path := none } = projectListed fileRow3 ∧
    (projectListed { fileRow3 with request_type := none }).request_type =
      some "chat" :=
  ⟨(history_listing_shape none dbRow3 (listStmt dbRow3 200)
      (by have hmin : min (200 : ℚ) 1000 = 200 := (by norm_num); simp [historyHandler, jsMin, hmin])).1 fileRow3 none,
   (history_listing_shape none dbRow3 (listStmt dbRow3 200)
      (by have hmin : min (200 : ℚ) 1000 = 200 := (by norm_num); simp [historyHandler, jsMin, hmin])).2.2.2
     { fileRow3 with request_type := none } rfl⟩
